import Mathlib

/-!
Verification development for the agent-device daemon.

Shallow embedding of the daemon's request pipeline, lease registry, error
normalization, HTTP JSON-RPC surface, and singleton-lock election, translated
from the TypeScript sources (`src/daemon.ts`, `src/daemon/lease-registry.ts`,
`src/daemon/http-server.ts`, `src/daemon/config.ts`, `src/daemon/session-selector.ts`,
`src/utils/errors.ts`, `src/utils/device.ts`, `src/utils/device-isolation.ts`).

JavaScript `string | undefined` values are modelled as `Option String`
(`none` = `undefined`); JS truthiness of such a value is "present and
non-empty".  JS numbers that the code guards with `Number.isInteger` are
modelled as `Int`.  `Map` objects are modelled as association lists with the
JS `Map` key-uniqueness invariant assumed where noted.  Methods that mutate
`this` and may throw are modelled as functions returning the final state
paired with an `Except` result (the state reflects mutations performed up to
the point of the throw).
-/

deriving instance DecidableEq for Except

namespace AgentDevice

/-! ## JavaScript string primitives -/

/-- ASCII whitespace, as removed by JS `String.prototype.trim`. -/
def isJsSpace (c : Char) : Bool :=
  c = ' ' ∨ c = '\t' ∨ c = '\n' ∨ c = '\r' ∨ c = Char.ofNat 11 ∨ c = Char.ofNat 12

def dropLeadingSpace : List Char → List Char
  | [] => []
  | c :: cs => if isJsSpace c then dropLeadingSpace cs else c :: cs

/-- JS `s.trim()`: strip leading and trailing whitespace. -/
def jsTrim (s : String) : String :=
  ⟨((dropLeadingSpace s.data.reverse).reverse |> dropLeadingSpace)⟩

/-- JS `c.toLowerCase()` restricted to ASCII letters (the only case the
daemon's inputs exercise: hex digits, platform names, boilerplate prefixes). -/
def jsCharLower (c : Char) : Char :=
  if 65 ≤ c.toNat ∧ c.toNat ≤ 90 then Char.ofNat (c.toNat + 32) else c

/-- JS `s.toLowerCase()` (ASCII). -/
def jsLower (s : String) : String :=
  ⟨s.data.map jsCharLower⟩

/-- Truthiness of a JS `string | undefined` value. -/
def optTruthy : Option String → Bool
  | none => false
  | some s => s ≠ ""

/-- JS `a ?? b` on optional strings. -/
def jsCoalesce (a b : Option String) : Option String :=
  match a with
  | some v => some v
  | none => b

/-- JS `list.join(", ")`. -/
def joinComma : List String → String
  | [] => ""
  | [x] => x
  | x :: rest => x ++ ", " ++ joinComma rest

/-! ## Character classes used by the daemon's validation regexes -/

/-- A character matching `[a-zA-Z0-9._-]` (tenant/run id alphabet), by
ASCII code (`a-z` = 97–122, `A-Z` = 65–90, `0-9` = 48–57, `.` = 46,
`_` = 95, `-` = 45). -/
def isIdentChar (c : Char) : Bool :=
  (97 ≤ c.toNat ∧ c.toNat ≤ 122) ∨ (65 ≤ c.toNat ∧ c.toNat ≤ 90)
    ∨ (48 ≤ c.toNat ∧ c.toNat ≤ 57) ∨ c.toNat = 46 ∨ c.toNat = 95 ∨ c.toNat = 45

/-- A character matching `[a-f0-9]` case-insensitively (lease id alphabet):
`a-f` = 97–102, `A-F` = 65–70, `0-9` = 48–57. -/
def isHexCharCI (c : Char) : Bool :=
  (97 ≤ c.toNat ∧ c.toNat ≤ 102) ∨ (65 ≤ c.toNat ∧ c.toNat ≤ 70)
    ∨ (48 ≤ c.toNat ∧ c.toNat ≤ 57)

/-- A lowercase hex digit `[a-f0-9]`. -/
def isHexCharLower (c : Char) : Bool :=
  (97 ≤ c.toNat ∧ c.toNat ≤ 102) ∨ (48 ≤ c.toNat ∧ c.toNat ≤ 57)

/-! ## Error model (`src/utils/errors.ts`) -/

/-- The closed `ErrorCode` union from `src/utils/errors.ts`. -/
inductive ErrorCode
  | INVALID_ARGS
  | DEVICE_NOT_FOUND
  | TOOL_MISSING
  | APP_NOT_INSTALLED
  | UNSUPPORTED_PLATFORM
  | UNSUPPORTED_OPERATION
  | COMMAND_FAILED
  | SESSION_NOT_FOUND
  | UNAUTHORIZED
  | UNKNOWN
  deriving DecidableEq, Repr

/-- A JSON-ish value stored in an error `details` map. -/
inductive JVal
  | str (s : String)
  | bool (b : Bool)
  | num (n : Int)
  | null
  deriving DecidableEq, Repr

/-- The `AppErrorDetails` map.  The three diagnostic-meta fields the
TypeScript type declares (`hint?: string`, `diagnosticId?: string`,
`logPath?: string`) are modelled as typed optional fields; every other
key/value pair lives in `rest`. -/
structure ErrDetails where
  hint : Option String := none
  diagnosticId : Option String := none
  logPath : Option String := none
  rest : List (String × JVal) := []
  deriving DecidableEq, Repr

/-- `AppError` from `src/utils/errors.ts`. -/
structure AppError where
  code : ErrorCode
  message : String
  details : Option ErrDetails := none
  deriving DecidableEq, Repr

/-- `Map.get` / object-key lookup over insertion-ordered entries (also the
model of JS `Map` reads; a JS `Map`/object never holds a key twice). -/
def alget {α : Type} : List (String × α) → String → Option α
  | [], _ => none
  | p :: t, k => if p.1 = k then some p.2 else alget t k

/-- Look up a key in an error's `details.rest` map. -/
def AppError.restGet (e : AppError) (k : String) : Option JVal :=
  match e.details with
  | none => none
  | some d => alget d.rest k

/-- The `reason` detail carried by registry errors. -/
def AppError.reason (e : AppError) : Option JVal := e.restGet "reason"

/-- `NormalizedError` from `src/utils/errors.ts`. -/
structure NormalizedError where
  code : ErrorCode
  message : String
  hint : Option String
  diagnosticId : Option String
  logPath : Option String
  details : Option (List (String × JVal))
  deriving DecidableEq, Repr

/-! ## Error normalization (`src/utils/errors.ts`)

`normalizeError` first runs `asAppError`; on an `AppError` input that is the
identity, and every error the verified claims concern is an `AppError`, so the
embedding takes an `AppError` directly. -/

/-- Context argument of `normalizeError`. -/
structure NormCtx where
  diagnosticId : Option String := none
  logPath : Option String := none
  deriving DecidableEq, Repr

/-- The secret-key allowlist used by diagnostics redaction. -/
def redactSecretKeys : List String :=
  ["token", "authorization", "password", "apiKey", "secret"]

/-- Modelled from the spec: `redactDiagnosticData` lives in
`src/utils/diagnostics.ts`, which is not among the sources; §4.2 of the spec
describes it as "a recursive pass [that] replaces values whose keys match a
secret allowlist (`token`, `authorization`, `password`, `apiKey`, `secret`, …)
with the literal `"[REDACTED]"`".  Keys are preserved, only values of
secret-named keys are replaced. -/
def redactEntry (p : String × JVal) : String × JVal :=
  if p.1 ∈ redactSecretKeys then (p.1, JVal.str "[REDACTED]") else p

def redactDiagnosticData (d : ErrDetails) : ErrDetails :=
  { d with rest := d.rest.map redactEntry }

/-- `pre` is a prefix of `s` (JS `String.prototype.startsWith`). -/
def strStartsWith (s pre : String) : Bool :=
  pre.data.isPrefixOf s.data

/-- A regex word character `[A-Za-z0-9_]` (for the `\b` boundary). -/
def isWordChar (c : Char) : Bool :=
  (97 ≤ c.toNat ∧ c.toNat ≤ 122) ∨ (65 ≤ c.toNat ∧ c.toNat ≤ 90)
    ∨ (48 ≤ c.toNat ∧ c.toNat ≤ 57) ∨ c.toNat = 95

/-- `/^underlying error\b/i` on an already-lowercased line: the prefix
`"underlying error"` followed by a word boundary. -/
def startsWithUnderlyingError (lower : String) : Bool :=
  strStartsWith lower "underlying error" &&
    (match lower.data.drop 16 with
     | [] => true
     | c :: _ => ! isWordChar c)

/-- The boilerplate skip patterns of `firstStderrLine`, applied to a trimmed,
lowercased line (the regexes are case-insensitive prefix matches). -/
def isBoilerplateLine (line : String) : Bool :=
  let l := jsLower line
  strStartsWith l "an error was encountered processing the command"
    ∨ startsWithUnderlyingError l
    ∨ strStartsWith l "simulator device failed to complete the requested operation"

/-- JS `line.length > 200 ? line.slice(0, 200) + "..." : line`. -/
def truncateStderrLine (line : String) : String :=
  if line.data.length > 200 then ⟨line.data.take 200⟩ ++ "..." else line

/-- `stderr.split('\n')` as lists of characters. -/
def splitOnNewline (cs : List Char) : List (List Char) :=
  match cs with
  | [] => [[]]
  | c :: rest =>
    let r := splitOnNewline rest
    if c = '\n' then [] :: r
    else
      match r with
      | [] => [[c]]
      | h :: t => (c :: h) :: t

/-- `firstStderrLine` from `src/utils/errors.ts`: the first non-empty,
non-boilerplate stderr line, truncated past 200 characters. -/
def firstStderrLine (stderr : String) : Option String :=
  go (splitOnNewline stderr.data)
where
  go : List (List Char) → Option String
    | [] => none
    | raw :: rest =>
      let line := jsTrim ⟨raw⟩
      if line = "" then go rest
      else if isBoilerplateLine line then go rest
      else some (truncateStderrLine line)

/-- `maybeEnrichCommandFailedMessage` from `src/utils/errors.ts`. -/
def maybeEnrichCommandFailedMessage
    (code : ErrorCode) (message : String) (details : Option ErrDetails) : String :=
  if code ≠ ErrorCode.COMMAND_FAILED then message
  else
    match details with
    | none => message
    | some d =>
      if alget d.rest "processExitError" ≠ some (JVal.bool true) then
        message
      else
        let stderr :=
          match alget d.rest "stderr" with
          | some (JVal.str s) => s
          | _ => ""
        match firstStderrLine stderr with
        | none => message
        | some excerpt => excerpt

/-- An entry whose key is none of `hint`/`diagnosticId`/`logPath`. -/
def nonMetaKey (p : String × JVal) : Bool :=
  p.1 ≠ "hint" ∧ p.1 ≠ "diagnosticId" ∧ p.1 ≠ "logPath"

/-- `stripDiagnosticMeta`: drop `hint`/`diagnosticId`/`logPath` from the
details map, returning `none` when nothing is left.  The typed fields carry
those three keys, and the `delete` statements also purge any such key from
the residual map. -/
def stripDiagnosticMeta (details : Option ErrDetails) : Option (List (String × JVal)) :=
  match details with
  | none => none
  | some d =>
    let out := d.rest.filter nonMetaKey
    if out.isEmpty then none else some out

/-- `defaultHintForCode` from `src/utils/errors.ts` (every branch, including
the `default` one, returns a string). -/
def defaultHintForCode : ErrorCode → String
  | .INVALID_ARGS => "Check command arguments and run --help for usage examples."
  | .SESSION_NOT_FOUND => "Run open first or pass an explicit device selector."
  | .TOOL_MISSING => "Install required platform tooling and ensure it is available in PATH."
  | .DEVICE_NOT_FOUND => "Verify the target device is booted/connected and selectors match."
  | .UNSUPPORTED_OPERATION => "This command is not available for the selected platform/device."
  | .COMMAND_FAILED => "Retry with --debug and inspect diagnostics log for details."
  | .UNAUTHORIZED => "Refresh daemon metadata and retry the command."
  | _ => "Retry with --debug and inspect diagnostics log for details."

/-- `normalizeError` from `src/utils/errors.ts`. -/
def normalizeError (err : AppError) (ctx : NormCtx := {}) : NormalizedError :=
  let details := err.details.map redactDiagnosticData
  let detailHint := details.bind (·.hint)
  let diagnosticId := jsCoalesce (details.bind (·.diagnosticId)) ctx.diagnosticId
  let logPath := jsCoalesce (details.bind (·.logPath)) ctx.logPath
  let hint := jsCoalesce detailHint (some (defaultHintForCode err.code))
  let cleanDetails := stripDiagnosticMeta details
  let message := maybeEnrichCommandFailedMessage err.code err.message details
  { code := err.code, message := message, hint := hint,
    diagnosticId := diagnosticId, logPath := logPath, details := cleanDetails }

/-! ## Daemon config normalizers (`src/daemon/config.ts`) -/

/-- `normalizeTenantId`: trim, then require `[a-zA-Z0-9._-]{1,128}`. -/
def normalizeTenantId (raw : Option String) : Option String :=
  match raw with
  | none => none
  | some s =>
    if s = "" then none
    else
      let value := jsTrim s
      if value = "" then none
      else if value.data.length ≥ 1 ∧ value.data.length ≤ 128 ∧ value.data.all isIdentChar then
        some value
      else none

/-- `resolveSessionIsolationMode`: `"tenant"` (after trim/lowercase) or `none`. -/
inductive SessionIsolationMode
  | tenant
  | none
  deriving DecidableEq, Repr

def resolveSessionIsolationMode (raw : Option String) : SessionIsolationMode :=
  if jsLower (jsTrim (raw.getD "")) = "tenant" then .tenant else .none

/-! ## Association-list model of JS `Map`

`Map.set` / `Map.delete` over insertion-ordered entries
(`alget` above is the read). -/

def alset {α : Type} (m : List (String × α)) (k : String) (v : α) : List (String × α) :=
  if (alget m k).isSome then
    m.map (fun p => if p.1 = k then (k, v) else p)
  else m ++ [(k, v)]

def aldel {α : Type} (m : List (String × α)) (k : String) : List (String × α) :=
  m.filter (fun p => p.1 ≠ k)

/-! ## Lease registry (`src/daemon/lease-registry.ts`) -/

/-- `LeaseBackend = 'ios-simulator'` (the only backend). -/
inductive LeaseBackendTy
  | iosSimulator
  deriving DecidableEq, Repr

def LeaseBackendTy.asString : LeaseBackendTy → String
  | .iosSimulator => "ios-simulator"

structure SimulatorLease where
  leaseId : String
  tenantId : String
  runId : String
  backend : LeaseBackendTy
  createdAt : Int
  heartbeatAt : Int
  expiresAt : Int
  deriving DecidableEq, Repr

structure LeaseRegistryOptions where
  maxActiveSimulatorLeases : Option Int := none
  defaultLeaseTtlMs : Option Int := none
  minLeaseTtlMs : Option Int := none
  maxLeaseTtlMs : Option Int := none
  deriving Repr

structure LeaseRegistryConfig where
  maxActiveSimulatorLeases : Int
  defaultLeaseTtlMs : Int
  minLeaseTtlMs : Int
  maxLeaseTtlMs : Int
  deriving DecidableEq, Repr

/-- The `LeaseRegistry` constructor: defaults 60s / 5s / 600s, configured
values floored at 1 (ttls), 0 (capacity), and `min` (max ttl).  `some v`
models a supplied integer option, `none` a missing or non-integer one
(`Number.isInteger` fails on both). -/
def mkLeaseRegistryConfig (o : LeaseRegistryOptions) : LeaseRegistryConfig :=
  let minTtl : Int := match o.minLeaseTtlMs with | some v => max 1 v | none => 5000
  { maxActiveSimulatorLeases := match o.maxActiveSimulatorLeases with | some v => max 0 v | none => 0
    defaultLeaseTtlMs := match o.defaultLeaseTtlMs with | some v => max 1 v | none => 60000
    minLeaseTtlMs := minTtl
    maxLeaseTtlMs := match o.maxLeaseTtlMs with | some v => max minTtl v | none => 600000 }

def defaultLeaseConfig : LeaseRegistryConfig := mkLeaseRegistryConfig {}

/-- The two private `Map`s of the registry. -/
structure RegistryState where
  leases : List (String × SimulatorLease) := []
  runBindings : List (String × String) := []
  deriving DecidableEq, Repr

/-- `normalizeRunId`: trim, then require `[a-zA-Z0-9._-]{1,128}`. -/
def normalizeRunId (raw : Option String) : Option String :=
  match raw with
  | none => none
  | some s =>
    if s = "" then none
    else
      let value := jsTrim s
      if value = "" then none
      else if value.data.length ≥ 1 ∧ value.data.length ≤ 128 ∧ value.data.all isIdentChar then
        some value
      else none

/-- `normalizeLeaseId`: trim, require `/^[a-f0-9]{16,128}$/i`, lowercase. -/
def normalizeLeaseId (raw : Option String) : Option String :=
  match raw with
  | none => none
  | some s =>
    if s = "" then none
    else
      let value := jsTrim s
      if value = "" then none
      else if value.data.length ≥ 16 ∧ value.data.length ≤ 128 ∧ value.data.all isHexCharCI then
        some (jsLower value)
      else none

/-- `normalizeLeaseBackend`: empty or `"ios-simulator"` (after trim/lowercase)
is the simulator backend; anything else is `INVALID_ARGS`. -/
def normalizeLeaseBackend (raw : Option String) : Except AppError LeaseBackendTy :=
  let value := jsLower (jsTrim (raw.getD ""))
  if value = "" ∨ value = "ios-simulator" then .ok .iosSimulator
  else .error ⟨.INVALID_ARGS, "Unsupported lease backend: " ++ raw.getD "", none⟩

def invalidTenantIdError : AppError :=
  ⟨.INVALID_ARGS, "Invalid tenant id. Use 1-128 chars: letters, numbers, dot, underscore, hyphen.", none⟩

def invalidRunIdError : AppError :=
  ⟨.INVALID_ARGS, "Invalid run id. Use 1-128 chars: letters, numbers, dot, underscore, hyphen.", none⟩

def invalidLeaseIdError : AppError := ⟨.INVALID_ARGS, "Invalid lease id.", none⟩

def leaseNotFoundError : AppError :=
  ⟨.UNAUTHORIZED, "Lease is not active",
    some { rest := [("reason", .str "LEASE_NOT_FOUND")] }⟩

def leaseScopeMismatchError : AppError :=
  ⟨.UNAUTHORIZED, "Lease does not match tenant/run scope",
    some { rest := [("reason", .str "LEASE_SCOPE_MISMATCH")] }⟩

def bindingKey (tenantId runId : String) (backend : LeaseBackendTy) : String :=
  tenantId ++ ":" ++ runId ++ ":" ++ backend.asString

def SimulatorLease.key (l : SimulatorLease) : String :=
  bindingKey l.tenantId l.runId l.backend

/-- `cleanupExpiredLeases`: delete every lease with `expiresAt ≤ now` and its
binding key.  The JS code iterates the `Map` deleting entries in place; with
the `Map`'s unique keys that equals the two filters below. -/
def cleanupExpiredLeases (now : Int) (st : RegistryState) : RegistryState :=
  { leases := st.leases.filter (fun p => now < p.2.expiresAt)
    runBindings := st.runBindings.filter (fun b =>
      ¬ st.leases.any (fun p => p.2.expiresAt ≤ now ∧ p.2.key = b.1)) }

def ttlRangeError (cfg : LeaseRegistryConfig) : AppError :=
  ⟨.INVALID_ARGS,
    "Lease ttlMs must be between " ++ toString cfg.minLeaseTtlMs ++ " and "
      ++ toString cfg.maxLeaseTtlMs ++ ".", none⟩

/-- `resolveLeaseTtlMs`: a missing (or non-integer) ttl resolves to the
default; an out-of-range one is rejected with `INVALID_ARGS`. -/
def resolveLeaseTtlMs (cfg : LeaseRegistryConfig) (raw : Option Int) : Except AppError Int :=
  match raw with
  | none => .ok cfg.defaultLeaseTtlMs
  | some value =>
    if value < cfg.minLeaseTtlMs ∨ value > cfg.maxLeaseTtlMs then .error (ttlRangeError cfg)
    else .ok value

/-- `refreshLease`: stamp `heartbeatAt = now`, `expiresAt = now + ttl`, and
re-store the lease and its binding. -/
def refreshLease (now ttlMs : Int) (lease : SimulatorLease) (st : RegistryState) :
    SimulatorLease × RegistryState :=
  let updated := { lease with heartbeatAt := now, expiresAt := now + ttlMs }
  (updated,
    { leases := alset st.leases updated.leaseId updated
      runBindings := alset st.runBindings updated.key updated.leaseId })

/-- `enforceCapacity`: with a positive configured cap, reject a new simulator
lease when the active count has reached it. -/
def enforceCapacity (cfg : LeaseRegistryConfig) (backend : LeaseBackendTy)
    (st : RegistryState) : Except AppError Unit :=
  match backend with
  | .iosSimulator =>
    if cfg.maxActiveSimulatorLeases ≤ 0 then .ok ()
    else
      let active : Int := (st.leases.filter (fun p => p.2.backend = .iosSimulator)).length
      if active < cfg.maxActiveSimulatorLeases then .ok ()
      else .error ⟨.COMMAND_FAILED, "No simulator lease capacity available",
        some { hint := some "Retry after releasing another simulator lease."
               rest := [("reason", .str "LEASE_CAPACITY_EXCEEDED"),
                        ("activeLeases", .num active),
                        ("maxActiveLeases", .num cfg.maxActiveSimulatorLeases),
                        ("backend", .str "ios-simulator")] }⟩

/-- `assertOptionalScopeMatch`: a supplied (truthy) tenant/run must be valid
and must equal the lease's recorded scope. -/
def assertOptionalScopeMatch (lease : SimulatorLease) (tenantRaw runRaw : Option String) :
    Except AppError Unit :=
  let tenantId := normalizeTenantId tenantRaw
  let runId := normalizeRunId runRaw
  if optTruthy tenantRaw ∧ tenantId = none then .error invalidTenantIdError
  else if optTruthy runRaw ∧ runId = none then .error invalidRunIdError
  else if tenantId.isSome ∧ tenantId ≠ some lease.tenantId then .error leaseScopeMismatchError
  else if runId.isSome ∧ runId ≠ some lease.runId then .error leaseScopeMismatchError
  else .ok ()

structure AllocateLeaseRequest where
  tenantId : String
  runId : String
  backend : Option String := none
  ttlMs : Option Int := none
  deriving DecidableEq, Repr

structure HeartbeatLeaseRequest where
  leaseId : String
  tenantId : Option String := none
  runId : Option String := none
  ttlMs : Option Int := none
  deriving DecidableEq, Repr

structure ReleaseLeaseRequest where
  leaseId : String
  tenantId : Option String := none
  runId : Option String := none
  deriving DecidableEq, Repr

structure AdmissionRequest where
  tenantId : Option String
  runId : Option String
  leaseId : Option String
  backend : Option String := none
  deriving DecidableEq, Repr

def hexDigit (n : Nat) : Char :=
  if n < 10 then Char.ofNat (48 + n) else Char.ofNat (87 + n)

/-- `crypto.randomBytes(16).toString('hex')`: the random bytes are an injected
parameter; each byte renders as two lowercase hex digits. -/
def bytesToHex (bs : List Nat) : String :=
  ⟨bs.foldr (fun b acc => hexDigit (b / 16 % 16) :: hexDigit (b % 16) :: acc) []⟩

/-- The fresh-mint tail of `allocateLease` (capacity check, then create and
index the new lease). -/
def allocateFresh (cfg : LeaseRegistryConfig) (now : Int) (entropy : List Nat)
    (tenantId runId : String) (backend : LeaseBackendTy) (leaseTtlMs : Int)
    (st : RegistryState) : RegistryState × Except AppError SimulatorLease :=
  match enforceCapacity cfg backend st with
  | .error e => (st, .error e)
  | .ok _ =>
    let lease : SimulatorLease :=
      { leaseId := bytesToHex entropy, tenantId := tenantId, runId := runId,
        backend := backend, createdAt := now, heartbeatAt := now,
        expiresAt := now + leaseTtlMs }
    ({ leases := alset st.leases lease.leaseId lease
       runBindings := alset st.runBindings (bindingKey tenantId runId backend) lease.leaseId },
     .ok lease)

/-- `allocateLease`.  `now` is the injected clock, `entropy` the injected
random bytes; the result pairs the final registry state with the outcome. -/
def allocateLease (cfg : LeaseRegistryConfig) (now : Int) (entropy : List Nat)
    (req : AllocateLeaseRequest) (st : RegistryState) :
    RegistryState × Except AppError SimulatorLease :=
  match normalizeLeaseBackend req.backend with
  | .error e => (st, .error e)
  | .ok backend =>
    match normalizeTenantId (some req.tenantId) with
    | none => (st, .error invalidTenantIdError)
    | some tenantId =>
      match normalizeRunId (some req.runId) with
      | none => (st, .error invalidRunIdError)
      | some runId =>
        let st1 := cleanupExpiredLeases now st
        match resolveLeaseTtlMs cfg req.ttlMs with
        | .error e => (st1, .error e)
        | .ok leaseTtlMs =>
          let key := bindingKey tenantId runId backend
          match alget st1.runBindings key with
          | some existingId =>
            match alget st1.leases existingId with
            | some existingLease =>
              let (l, st2) := refreshLease now leaseTtlMs existingLease st1
              (st2, .ok l)
            | none =>
              allocateFresh cfg now entropy tenantId runId backend leaseTtlMs
                { st1 with runBindings := aldel st1.runBindings key }
          | none => allocateFresh cfg now entropy tenantId runId backend leaseTtlMs st1

/-- `heartbeatLease`. -/
def heartbeatLease (cfg : LeaseRegistryConfig) (now : Int)
    (req : HeartbeatLeaseRequest) (st : RegistryState) :
    RegistryState × Except AppError SimulatorLease :=
  match normalizeLeaseId (some req.leaseId) with
  | none => (st, .error invalidLeaseIdError)
  | some leaseId =>
    let st1 := cleanupExpiredLeases now st
    match alget st1.leases leaseId with
    | none => (st1, .error leaseNotFoundError)
    | some lease =>
      match assertOptionalScopeMatch lease req.tenantId req.runId with
      | .error e => (st1, .error e)
      | .ok _ =>
        match resolveLeaseTtlMs cfg req.ttlMs with
        | .error e => (st1, .error e)
        | .ok ttl =>
          let (l, st2) := refreshLease now ttl lease st1
          (st2, .ok l)

/-- `releaseLease` (returns the `released` flag). -/
def releaseLease (now : Int) (req : ReleaseLeaseRequest) (st : RegistryState) :
    RegistryState × Except AppError Bool :=
  match normalizeLeaseId (some req.leaseId) with
  | none => (st, .error invalidLeaseIdError)
  | some leaseId =>
    let st1 := cleanupExpiredLeases now st
    match alget st1.leases leaseId with
    | none => (st1, .ok false)
    | some lease =>
      match assertOptionalScopeMatch lease req.tenantId req.runId with
      | .error e => (st1, .error e)
      | .ok _ =>
        ({ leases := aldel st1.leases leaseId
           runBindings := aldel st1.runBindings lease.key },
         .ok true)

/-- `assertLeaseAdmission`. -/
def assertLeaseAdmission (now : Int) (req : AdmissionRequest) (st : RegistryState) :
    RegistryState × Except AppError Unit :=
  match normalizeLeaseBackend req.backend with
  | .error e => (st, .error e)
  | .ok backend =>
    match normalizeTenantId req.tenantId with
    | none => (st, .error ⟨.INVALID_ARGS, "tenant isolation requires tenant id.", none⟩)
    | some tenantId =>
      match normalizeRunId req.runId with
      | none => (st, .error ⟨.INVALID_ARGS, "tenant isolation requires run id.", none⟩)
      | some runId =>
        match normalizeLeaseId req.leaseId with
        | none => (st, .error ⟨.INVALID_ARGS, "tenant isolation requires lease id.", none⟩)
        | some leaseId =>
          let st1 := cleanupExpiredLeases now st
          match alget st1.leases leaseId with
          | none => (st1, .error leaseNotFoundError)
          | some lease =>
            if lease.backend ≠ backend ∨ lease.tenantId ≠ tenantId ∨ lease.runId ≠ runId then
              (st1, .error leaseScopeMismatchError)
            else (st1, .ok ())

/-! ## Devices, flags and requests (`src/utils/device.ts`, `src/daemon/types.ts`) -/

inductive Platform
  | ios
  | android
  deriving DecidableEq, Repr

def Platform.asString : Platform → String
  | .ios => "ios"
  | .android => "android"

inductive PlatformSelector
  | ios
  | android
  | apple
  deriving DecidableEq, Repr

def PlatformSelector.asString : PlatformSelector → String
  | .ios => "ios"
  | .android => "android"
  | .apple => "apple"

/-- `normalizePlatformSelector`: `apple` aliases to `ios`. -/
def PlatformSelector.normalize : PlatformSelector → Platform
  | .apple => .ios
  | .ios => .ios
  | .android => .android

def normalizePlatformSelector (p : Option PlatformSelector) : Option Platform :=
  p.map PlatformSelector.normalize

inductive DeviceKind
  | simulator
  | emulator
  | device
  deriving DecidableEq, Repr

inductive DeviceTarget
  | mobile
  | tv
  deriving DecidableEq, Repr

def DeviceTarget.asString : DeviceTarget → String
  | .mobile => "mobile"
  | .tv => "tv"

structure DeviceInfo where
  platform : Platform
  id : String
  name : String
  kind : DeviceKind
  target : Option DeviceTarget := none
  booted : Option Bool := none
  simulatorSetPath : Option String := none
  deriving DecidableEq, Repr

/-- The selector-relevant portion of `CommandFlags` (the open flag map),
with the typed fields the verified pipeline stages consume. -/
structure CommandFlags where
  platform : Option PlatformSelector := none
  target : Option DeviceTarget := none
  device : Option String := none
  udid : Option String := none
  serial : Option String := none
  iosSimulatorDeviceSet : Option String := none
  androidDeviceAllowlist : Option String := none
  tenant : Option String := none
  runId : Option String := none
  leaseId : Option String := none
  sessionIsolation : Option String := none
  verbose : Option Bool := none
  out : Option String := none
  deriving DecidableEq, Repr

structure RequestMeta where
  requestId : Option String := none
  debug : Option Bool := none
  tenantId : Option String := none
  runId : Option String := none
  leaseId : Option String := none
  leaseTtlMs : Option Int := none
  leaseBackend : Option String := none
  sessionIsolation : Option String := none
  deriving DecidableEq, Repr

structure DaemonRequest where
  token : String
  session : String
  command : String
  positionals : List String := []
  flags : Option CommandFlags := none
  meta : Option RequestMeta := none
  deriving DecidableEq, Repr

structure SessionState where
  name : String
  device : DeviceInfo
  createdAt : Int := 0
  appName : Option String := none
  appBundleId : Option String := none
  deriving DecidableEq, Repr

/-- A daemon response: `{ok:true, data}` or `{ok:false, error}` (the error
field carries the normalized-error shape). -/
inductive DaemonResponse
  | ok (data : List (String × JVal))
  | err (e : NormalizedError)
  deriving DecidableEq, Repr

/-! ## Serial allowlists (`src/utils/device-isolation.ts`) -/

/-- A separator for `split(/[\s,]+/)`. -/
def isSepChar (c : Char) : Bool := c = ',' ∨ isJsSpace c

def tokenizeSeps : List Char → List Char → List String
  | [], acc => if acc.isEmpty then [] else [⟨acc.reverse⟩]
  | c :: rest, acc =>
    if isSepChar c then
      if acc.isEmpty then tokenizeSeps rest []
      else ⟨acc.reverse⟩ :: tokenizeSeps rest []
    else tokenizeSeps rest (c :: acc)

/-- `parseSerialAllowlist`: split on comma/whitespace runs, drop empties.
The JS `Set` is modelled as the list of tokens (membership is all that the
selector check consumes). -/
def parseSerialAllowlist (s : String) : List String :=
  tokenizeSeps s.data []

/-! ## Session selector compatibility (`src/daemon/session-selector.ts`) -/

/-- The mismatch list accumulated by `assertSessionSelectorMatches`, in the
source's check order. -/
def computeSelectorMismatches (session : SessionState) (flags : CommandFlags) : List String :=
  let device := session.device
  let m1 := match flags.platform with
    | some sel => if sel.normalize ≠ device.platform then ["--platform=" ++ sel.asString] else []
    | none => []
  let m2 := match flags.target with
    | some t => if t ≠ device.target.getD .mobile then ["--target=" ++ t.asString] else []
    | none => []
  let m3 := match flags.udid with
    | some u =>
      if u ≠ "" ∧ (device.platform ≠ .ios ∨ u ≠ device.id) then ["--udid=" ++ u] else []
    | none => []
  let m4 := match flags.serial with
    | some s =>
      if s ≠ "" ∧ (device.platform ≠ .android ∨ s ≠ device.id) then ["--serial=" ++ s] else []
    | none => []
  let m5 := match flags.device with
    | some d =>
      if d ≠ "" ∧ jsLower (jsTrim d) ≠ jsLower (jsTrim device.name) then ["--device=" ++ d] else []
    | none => []
  let m6 := match flags.iosSimulatorDeviceSet with
    | some v =>
      if v ≠ "" ∧
          (device.platform ≠ .ios ∨ device.kind ≠ .simulator
            ∨ some (jsTrim v) ≠ device.simulatorSetPath.map jsTrim) then
        ["--ios-simulator-device-set=" ++ v]
      else []
    | none => []
  let m7 := match flags.androidDeviceAllowlist with
    | some v =>
      if v ≠ "" ∧ (device.platform ≠ .android ∨ device.id ∉ parseSerialAllowlist v) then
        ["--android-device-allowlist=" ++ v]
      else []
    | none => []
  m1 ++ m2 ++ m3 ++ m4 ++ m5 ++ m6 ++ m7

def describeDevice (session : SessionState) : String :=
  session.device.platform.asString ++ " device \"" ++ jsTrim session.device.name
    ++ "\" (" ++ session.device.id ++ ")"

def selectorMismatchMessage (session : SessionState) (mismatches : List String) : String :=
  "Session \"" ++ session.name ++ "\" is bound to " ++ describeDevice session
    ++ " and cannot be used with " ++ joinComma mismatches
    ++ ". Use a different --session name or close this session first."

/-- `assertSessionSelectorMatches`: `INVALID_ARGS` enumerating every
offending flag, or `ok` when none (or when no flags were supplied). -/
def assertSessionSelectorMatches (session : SessionState) (flags : Option CommandFlags) :
    Except AppError Unit :=
  match flags with
  | none => .ok ()
  | some f =>
    let mismatches := computeSelectorMismatches session f
    if mismatches.isEmpty then .ok ()
    else .error ⟨.INVALID_ARGS, selectorMismatchMessage session mismatches, none⟩

/-! ## Tenant scoping (`src/daemon.ts` `scopeRequestSession`) -/

def tenantIsolationRequiresTenantError : AppError :=
  ⟨.INVALID_ARGS, "session isolation mode tenant requires --tenant (or meta.tenantId).", none⟩

/-- `req.meta?.sessionIsolation ?? req.flags?.sessionIsolation`, resolved. -/
def requestIsolation (req : DaemonRequest) : SessionIsolationMode :=
  resolveSessionIsolationMode
    (jsCoalesce (req.meta.bind (·.sessionIsolation)) (req.flags.bind (·.sessionIsolation)))

/-- `req.meta?.tenantId ?? req.flags?.tenant`. -/
def requestRawTenant (req : DaemonRequest) : Option String :=
  jsCoalesce (req.meta.bind (·.tenantId)) (req.flags.bind (·.tenant))

def scopeRequestSession (req : DaemonRequest) : Except AppError DaemonRequest :=
  let isolation := requestIsolation req
  let rawTenant := requestRawTenant req
  let tenant := normalizeTenantId rawTenant
  if optTruthy rawTenant ∧ tenant = none then .error invalidTenantIdError
  else if isolation ≠ .tenant then .ok req
  else
    match tenant with
    | none => .error tenantIsolationRequiresTenantError
    | some t =>
      .ok { req with
            session := t ++ ":" ++ (if req.session = "" then "default" else req.session)
            meta := some { (req.meta.getD {}) with
                           tenantId := some t
                           sessionIsolation := some "tenant" } }

/-! ## Request pipeline (`src/daemon.ts` `handleRequest`) -/

def normalizeAliasedCommands (req : DaemonRequest) : DaemonRequest :=
  if req.command = "click" then { req with command := "press" } else req

structure LeaseScope where
  tenantId : Option String := none
  runId : Option String := none
  leaseId : Option String := none
  leaseTtlMs : Option Int := none
  leaseBackend : Option String := none
  deriving DecidableEq, Repr

/-- `resolveLeaseScope` (`src/daemon/lease-context.ts`). -/
def resolveLeaseScope (req : DaemonRequest) : LeaseScope :=
  { tenantId := jsCoalesce (req.meta.bind (·.tenantId)) (req.flags.bind (·.tenant))
    runId := jsCoalesce (req.meta.bind (·.runId)) (req.flags.bind (·.runId))
    leaseId := jsCoalesce (req.meta.bind (·.leaseId)) (req.flags.bind (·.leaseId))
    leaseTtlMs := req.meta.bind (·.leaseTtlMs)
    leaseBackend := req.meta.bind (·.leaseBackend) }

def selectorValidationExemptCommands : List String := ["session_list", "devices"]

def leaseAdmissionExemptCommands : List String :=
  ["session_list", "devices", "lease_allocate", "lease_heartbeat", "lease_release"]

/-- `finalizeDaemonResponse`: error responses are re-wrapped in an `AppError`
and re-normalized with the diagnostics context; success passes through. -/
def finalizeDaemonResponse (diag : NormCtx) (r : DaemonResponse) : DaemonResponse :=
  match r with
  | .ok d => .ok d
  | .err e =>
    .err (normalizeError
      ⟨e.code, e.message,
        some { hint := e.hint, diagnosticId := e.diagnosticId, logPath := e.logPath,
               rest := e.details.getD [] }⟩
      diag)

/-- The environment of `handleRequest`: session store contents, lease
registry state, the effective-session-name resolver
(`src/daemon/session-routing.ts`, not among the sources, hence abstract), the
ordered handler groups (lease / session / snapshot / record-trace / find /
interaction, each returning `null` or a response, possibly throwing), the
dispatcher and capability matrix, and the diagnostics context used to
normalize failures. -/
structure PipelineEnv where
  sessions : List (String × SessionState)
  registry : RegistryState
  effName : DaemonRequest → String
  handlers : List (DaemonRequest → Except AppError (Option DaemonResponse))
  dispatch : DaemonRequest → SessionState → Except AppError (List (String × JVal))
  supported : String → DeviceInfo → Bool
  diag : NormCtx

/-- The handler-demux plus default-dispatch tail of `handleRequest`.  The
returned `Bool` records whether `dispatchCommand` was invoked. -/
def runHandlerChain (env : PipelineEnv) (sreq : DaemonRequest) (sessionName : String) :
    List (DaemonRequest → Except AppError (Option DaemonResponse)) → Bool × DaemonResponse
  | h :: rest =>
    match h sreq with
    | .error e => (false, .err (normalizeError e env.diag))
    | .ok (some resp) => (false, finalizeDaemonResponse env.diag resp)
    | .ok none => runHandlerChain env sreq sessionName rest
  | [] =>
    match alget env.sessions sessionName with
    | none =>
      (false, finalizeDaemonResponse env.diag
        (.err ⟨.SESSION_NOT_FOUND, "No active session. Run open first.", none, none, none, none⟩))
    | some session =>
      if ¬ env.supported sreq.command session.device then
        (false, finalizeDaemonResponse env.diag
          (.err ⟨.UNSUPPORTED_OPERATION, sreq.command ++ " is not supported on this device",
                 none, none, none, none⟩))
      else
        match env.dispatch sreq session with
        | .error e => (true, .err (normalizeError e env.diag))
        | .ok data => (true, finalizeDaemonResponse env.diag (.ok data))

/-- `handleRequest` after alias normalization and the token gate, with the
ordered stages of the source: token check, tenant scoping, lease admission,
effective-name resolution, selector compatibility, handler demux, default
dispatch.  A thrown `AppError` is caught and normalized with the diagnostics
context. -/
def handleRequestCore (secret : String) (now : Int) (env : PipelineEnv)
    (req : DaemonRequest) : Bool × DaemonResponse :=
  let nreq := normalizeAliasedCommands req
  if nreq.token ≠ secret then
    (false, .err (normalizeError ⟨.UNAUTHORIZED, "Invalid token", none⟩))
  else
    match scopeRequestSession nreq with
    | .error e => (false, .err (normalizeError e env.diag))
    | .ok sreq =>
      let leaseScope := resolveLeaseScope sreq
      let admission : Except AppError Unit :=
        if sreq.command ∉ leaseAdmissionExemptCommands
            ∧ (sreq.meta.bind (·.sessionIsolation)) = some "tenant" then
          (assertLeaseAdmission now
            ⟨leaseScope.tenantId, leaseScope.runId, leaseScope.leaseId, leaseScope.leaseBackend⟩
            env.registry).2
        else .ok ()
      match admission with
      | .error e => (false, .err (normalizeError e env.diag))
      | .ok _ =>
        let sessionName := env.effName sreq
        let selectorCheck : Except AppError Unit :=
          match alget env.sessions sessionName with
          | some s =>
            if sreq.command ∉ selectorValidationExemptCommands then
              assertSessionSelectorMatches s sreq.flags
            else .ok ()
          | none => .ok ()
        match selectorCheck with
        | .error e => (false, .err (normalizeError e env.diag))
        | .ok _ => runHandlerChain env sreq sessionName env.handlers

/-! ## Token comparison cost (`src/daemon.ts` line 122)

The daemon gates every request with `normalizedReq.token !== token`, a plain
string comparison.  The cost model below counts the character comparisons an
early-exit equality performs: engines compare code units left-to-right and
stop at the first difference, so the work done depends on where the supplied
token first deviates from the secret.  A constant-time comparison's cost would
be a function of the lengths alone. -/

def strEqCost : List Char → List Char → Nat
  | [], _ => 0
  | _ :: _, [] => 0
  | a :: as, b :: bs => 1 + (if a = b then strEqCost as bs else 0)

def tokenCompareCost (secret supplied : String) : Nat :=
  strEqCost secret.data supplied.data

/-! ## Singleton lock election (`src/daemon.ts` `acquireDaemonLock` / `start`) -/

structure DaemonLockInfo where
  pid : Int
  version : String := ""
  startedAt : Int := 0
  processStartTime : Option String := none
  deriving DecidableEq, Repr

/-- The lock-file slot of the state directory: `none` = no file,
`some none` = a file whose contents do not parse to a lock record,
`some (some info)` = a file recording `info`. -/
structure LockFs where
  lock : Option (Option DaemonLockInfo) := none
  deriving DecidableEq, Repr

/-- `readLockInfo`: parse the lock file; reject a non-positive pid. -/
def readLockInfo (fs : LockFs) : Option DaemonLockInfo :=
  match fs.lock with
  | none => none
  | some none => none
  | some (some info) => if info.pid ≤ 0 then none else some info

structure LockAcquireResult where
  acquired : Bool
  fs : LockFs
  createAttempts : Nat
  deletedStale : Bool
  deriving DecidableEq, Repr

/-- `acquireDaemonLock`.  `isLive pid startTime?` abstracts
`isAgentDeviceDaemonProcess` (`src/utils/process-identity.ts`): whether the
pid is a live daemon process of this codebase, with a matching process start
time when one is recorded.  `createAttempts` counts the `O_EXCL` create
attempts; in this single-process model the retried create succeeds. -/
def acquireDaemonLock (isLive : Int → Option String → Bool) (selfPid : Int)
    (selfInfo : DaemonLockInfo) (fs : LockFs) : LockAcquireResult :=
  match fs.lock with
  | none =>
    { acquired := true, fs := { lock := some (some selfInfo) },
      createAttempts := 1, deletedStale := false }
  | some _ =>
    match readLockInfo fs with
    | some info =>
      if info.pid ≠ selfPid ∧ isLive info.pid info.processStartTime then
        { acquired := false, fs := fs, createAttempts := 1, deletedStale := false }
      else
        { acquired := true, fs := { lock := some (some selfInfo) },
          createAttempts := 2, deletedStale := true }
    | none =>
      { acquired := true, fs := { lock := some (some selfInfo) },
        createAttempts := 2, deletedStale := true }

/-- The election outcome at the top of `start()`: either proceed holding the
lock, or print to stderr and `process.exit(0)`. -/
inductive StartAction
  | proceed
  | yieldExitZero (stderrMessage : String)
  deriving DecidableEq, Repr

def startElection (isLive : Int → Option String → Bool) (selfPid : Int)
    (selfInfo : DaemonLockInfo) (fs : LockFs) : StartAction × LockFs :=
  let r := acquireDaemonLock isLive selfPid selfInfo fs
  if r.acquired then (.proceed, r.fs)
  else (.yieldExitZero "Daemon lock is held by another process; exiting.\n", r.fs)

/-! ## HTTP JSON-RPC surface (`src/daemon/http-server.ts`) -/

inductive RpcId
  | str (s : String)
  | num (n : Int)
  deriving DecidableEq, Repr

/-- A JSON value in the `params` position: an object carrying the fields the
server reads, an array (`typeof` object, all field reads `undefined`), the
`null` literal, or a non-object primitive. -/
structure RpcParams where
  token : Option String := none
  session : Option String := none
  command : Option String := none
  positionals : Option (List String) := none
  flags : Option CommandFlags := none
  meta : Option RequestMeta := none
  tenantId : Option String := none
  tenant : Option String := none
  runId : Option String := none
  leaseId : Option String := none
  ttlMs : Option Int := none
  backend : Option String := none
  deriving DecidableEq, Repr

inductive RpcJson
  | obj (p : RpcParams)
  | arr
  | nullLit
  | prim
  deriving DecidableEq, Repr

structure RpcRequest where
  jsonrpc : Option String := none
  id : Option RpcId := none
  method : Option String := none
  params : Option RpcJson := none
  deriving DecidableEq, Repr

structure HttpHeaders where
  authorization : Option String := none
  xAgentDeviceToken : Option String := none
  deriving DecidableEq, Repr

structure RpcError where
  code : Int
  message : String
  data : Option NormalizedError := none
  deriving DecidableEq, Repr

structure JsonRpcResponse where
  jsonrpc : String := "2.0"
  id : Option RpcId := none
  result : Option DaemonResponse := none
  error : Option RpcError := none
  deriving DecidableEq, Repr

def createRpcError (id : Option RpcId) (code : Int) (message : String)
    (data : Option NormalizedError := none) : JsonRpcResponse :=
  { id := id, error := some { code := code, message := message, data := data } }

/-- `statusCodeForNormalizedError`. -/
def statusCodeForNormalizedError : ErrorCode → Nat
  | .INVALID_ARGS => 400
  | .UNAUTHORIZED => 401
  | .SESSION_NOT_FOUND => 404
  | _ => 500

/-- `resolveToken`: `params.token ?? x-agent-device-token ?? Bearer`. -/
def resolveToken (p : RpcParams) (h : HttpHeaders) : String :=
  let authHeader := h.authorization.getD ""
  let bearerToken : Option String :=
    if strStartsWith (jsLower authHeader) "bearer " then some ⟨authHeader.data.drop 7⟩ else none
  (jsCoalesce p.token (jsCoalesce h.xAgentDeviceToken bearerToken)).getD ""

def commandRpcMethods : List String := ["agent_device.command", "agent-device.command"]

def leaseRpcMethodToCommand (m : String) : Option String :=
  if m = "agent_device.lease.allocate" ∨ m = "agent-device.lease.allocate" then some "lease_allocate"
  else if m = "agent_device.lease.heartbeat" ∨ m = "agent-device.lease.heartbeat" then some "lease_heartbeat"
  else if m = "agent_device.lease.release" ∨ m = "agent-device.lease.release" then some "lease_release"
  else none

def supportedRpcMethods : List String :=
  commandRpcMethods ++
    ["agent_device.lease.allocate", "agent-device.lease.allocate",
     "agent_device.lease.heartbeat", "agent-device.lease.heartbeat",
     "agent_device.lease.release", "agent-device.lease.release"]

def toDaemonRequest (p : RpcParams) (h : HttpHeaders) : DaemonRequest :=
  { token := resolveToken p h
    session := p.session.getD "default"
    command := p.command.getD ""
    positionals := p.positionals.getD []
    flags := p.flags
    meta := p.meta }

def toLeaseDaemonRequest (command : String) (p : RpcParams) (h : HttpHeaders) : DaemonRequest :=
  { token := resolveToken p h
    session := p.session.getD "default"
    command := command
    positionals := []
    meta := some { tenantId := jsCoalesce p.tenantId p.tenant
                   runId := p.runId
                   leaseId := p.leaseId
                   leaseTtlMs := p.ttlMs
                   leaseBackend := p.backend } }

def methodToDaemonRequest (m : String) (p : RpcParams) (h : HttpHeaders) :
    Except AppError DaemonRequest :=
  if m ∈ commandRpcMethods then .ok (toDaemonRequest p h)
  else
    match leaseRpcMethodToCommand m with
    | some c => .ok (toLeaseDaemonRequest c p h)
    | none => .error ⟨.INVALID_ARGS, "Method not found: " ++ m, none⟩

/-- The object-typed view of the `params` field:
`!params || typeof params !== 'object'` rejects everything but objects and
arrays; an array reads as an object none of whose fields are present. -/
def rpcParamsObject : Option RpcJson → Option RpcParams
  | some (.obj p) => some p
  | some .arr => some {}
  | _ => none

/-- The `POST /rpc` body handler after JSON parsing, with no auth hook
configured (`AGENT_DEVICE_HTTP_AUTH_HOOK` unset).  Returns the HTTP status
code and the JSON-RPC response. -/
def handleRpcPost (handleReq : DaemonRequest → DaemonResponse)
    (rpc : RpcRequest) (h : HttpHeaders) : Nat × JsonRpcResponse :=
  if rpc.jsonrpc ≠ some "2.0" ∨ rpc.method = none then
    (400, createRpcError rpc.id (-32600) "Invalid Request")
  else
    let m := rpc.method.getD ""
    if m ∉ supportedRpcMethods then
      (404, createRpcError rpc.id (-32601) ("Method not found: " ++ m))
    else
      match rpcParamsObject rpc.params with
      | none => (400, createRpcError rpc.id (-32602) "Invalid params")
      | some p =>
        match methodToDaemonRequest m p h with
        | .error e =>
          let n := normalizeError e
          (statusCodeForNormalizedError n.code, createRpcError rpc.id (-32000) n.message (some n))
        | .ok dreq =>
          if m ∈ commandRpcMethods ∧ dreq.command = "" then
            (400, createRpcError rpc.id (-32602) "Invalid params: command is required")
          else
            match handleReq dreq with
            | .ok data => (200, { id := rpc.id, result := some (.ok data) })
            | .err e =>
              (statusCodeForNormalizedError e.code,
                createRpcError rpc.id (-32000) e.message (some e))

/-! ## Helper lemmas -/

theorem alget_eq_none_of_all_ne {α : Type} {m : List (String × α)} {k : String}
    (h : ∀ x ∈ m, x.1 ≠ k) : alget m k = none := by
  induction m with
  | nil => rfl
  | cons p t ih =>
    have hp : ¬ (p.1 = k) := h p (List.mem_cons_self p t)
    simp only [alget, if_neg hp]
    exact ih (fun x hx => h x (List.mem_cons_of_mem p hx))

theorem alget_filter_eq_none {α : Type} {m : List (String × α)} {k : String}
    (p : String × α → Bool) (h : alget m k = none) : alget (m.filter p) k = none := by
  induction m with
  | nil => rfl
  | cons q t ih =>
    by_cases hq : q.1 = k
    · simp only [alget, if_pos hq] at h
      exact absurd h (by simp)
    · simp only [alget, if_neg hq] at h
      simp only [List.filter_cons]
      by_cases hp : p q
      · simp only [hp, if_pos, alget, if_neg hq]
        exact ih h
      · simp only [hp, Bool.false_eq_true, if_neg, not_false_iff]
        exact ih h

theorem alget_alset_self {α : Type} (m : List (String × α)) (k : String) (v : α) :
    alget (alset m k v) k = some v := by
  unfold alset
  by_cases hmem : (alget m k).isSome
  · rw [if_pos hmem]
    induction m with
    | nil => simp [alget] at hmem
    | cons p t ih =>
      by_cases hp : p.1 = k
      · simp [alget, hp]
      · simp only [alget, if_neg hp, List.map_cons, if_neg hp] at hmem ⊢
        exact ih hmem
  · rw [if_neg hmem]
    induction m with
    | nil => simp [alget]
    | cons p t ih =>
      by_cases hp : p.1 = k
      · exact absurd (by simp [alget, hp]) hmem
      · simp only [alget, if_neg hp, List.cons_append] at hmem ⊢
        exact ih hmem

theorem alget_aldel_self {α : Type} (m : List (String × α)) (k : String) :
    alget (aldel m k) k = none := by
  apply alget_eq_none_of_all_ne
  intro x hx
  have := List.of_mem_filter hx
  simpa using this

/-- The predicate selecting the informative stderr line: non-empty after
trimming, and not a known boilerplate prefix. -/
def informativeLine (l : String) : Bool :=
  (!(l == "")) && (! isBoilerplateLine l)

theorem firstStderrLine_go_eq (ls : List (List Char)) :
    firstStderrLine.go ls
      = ((ls.map (fun cs => jsTrim ⟨cs⟩)).find? informativeLine).map truncateStderrLine := by
  induction ls with
  | nil => rfl
  | cons h t ih =>
    by_cases h1 : jsTrim ⟨h⟩ = ""
    · have hi : informativeLine (jsTrim ⟨h⟩) = false := by simp [informativeLine, h1]
      simp only [firstStderrLine.go, if_pos h1, List.map_cons, List.find?_cons, hi]
      exact ih
    · by_cases h2 : isBoilerplateLine (jsTrim ⟨h⟩)
      · have hi : informativeLine (jsTrim ⟨h⟩) = false := by simp [informativeLine, h2]
        simp only [firstStderrLine.go, if_neg h1, if_pos h2, List.map_cons, List.find?_cons, hi]
        exact ih
      · have hi : informativeLine (jsTrim ⟨h⟩) = true := by simp [informativeLine, h1, h2]
        simp only [firstStderrLine.go, if_neg h1, if_neg h2, List.map_cons, List.find?_cons, hi]
        rfl

theorem redactEntry_key (p : String × JVal) : (redactEntry p).1 = p.1 := by
  unfold redactEntry
  by_cases h : p.1 ∈ redactSecretKeys <;> simp [h]

theorem alget_map_redactEntry (rest : List (String × JVal)) (k : String)
    (hk : k ∉ redactSecretKeys) :
    alget (rest.map redactEntry) k = alget rest k := by
  induction rest with
  | nil => rfl
  | cons p t ih =>
    by_cases hp : p.1 = k
    · have hmem : p.1 ∉ redactSecretKeys := by rw [hp]; exact hk
      have hre : redactEntry p = p := by simp [redactEntry, hmem]
      simp [alget, hre, hp]
    · have hkey := redactEntry_key p
      simp only [List.map_cons, alget, hkey, if_neg hp]
      exact ih

theorem filter_nonMeta_map_redact (rest : List (String × JVal)) :
    (rest.map redactEntry).filter nonMetaKey = (rest.filter nonMetaKey).map redactEntry := by
  induction rest with
  | nil => rfl
  | cons p t ih =>
    have hkey : nonMetaKey (redactEntry p) = nonMetaKey p := by
      simp [nonMetaKey, redactEntry_key]
    by_cases hm : nonMetaKey p
    · simp only [List.map_cons, List.filter_cons, hkey, hm, if_pos, ih]
    · simp only [List.map_cons, List.filter_cons, hkey, hm, Bool.false_eq_true, if_neg,
        not_false_iff, ih]

theorem normalizeError_code_def (err : AppError) (ctx : NormCtx) :
    (normalizeError err ctx).code = err.code := rfl

theorem normalizeError_hint_def (err : AppError) (ctx : NormCtx) :
    (normalizeError err ctx).hint
      = jsCoalesce ((err.details.map redactDiagnosticData).bind (·.hint))
          (some (defaultHintForCode err.code)) := rfl

theorem normalizeError_diagnosticId_def (err : AppError) (ctx : NormCtx) :
    (normalizeError err ctx).diagnosticId
      = jsCoalesce ((err.details.map redactDiagnosticData).bind (·.diagnosticId))
          ctx.diagnosticId := rfl

theorem normalizeError_logPath_def (err : AppError) (ctx : NormCtx) :
    (normalizeError err ctx).logPath
      = jsCoalesce ((err.details.map redactDiagnosticData).bind (·.logPath)) ctx.logPath := rfl

theorem normalizeError_details_def (err : AppError) (ctx : NormCtx) :
    (normalizeError err ctx).details
      = stripDiagnosticMeta (err.details.map redactDiagnosticData) := rfl

theorem normalizeError_message_def (err : AppError) (ctx : NormCtx) :
    (normalizeError err ctx).message
      = maybeEnrichCommandFailedMessage err.code err.message
          (err.details.map redactDiagnosticData) := rfl

theorem redact_hint (d : ErrDetails) : (redactDiagnosticData d).hint = d.hint := rfl

theorem redact_diagnosticId (d : ErrDetails) :
    (redactDiagnosticData d).diagnosticId = d.diagnosticId := rfl

theorem redact_logPath (d : ErrDetails) : (redactDiagnosticData d).logPath = d.logPath := rfl

/-- **C9.**  `normalizeError` lifts `hint`, `diagnosticId` and `logPath` from
`details` to the top level (falling back to the context and, for `hint`, to
the per-code default) and removes them from the details map; a details map
left empty is dropped entirely; every code receives a default hint when none
was supplied; and when the code is `COMMAND_FAILED` and details mark a direct
subprocess exit, the message is replaced by the first non-empty stderr line
not matching a known boilerplate prefix, truncated to 200 characters. -/
theorem c9_normalize_error (err : AppError) (ctx : NormCtx) :
    ((normalizeError err ctx).hint
        = jsCoalesce (err.details.bind (·.hint)) (some (defaultHintForCode err.code)))
    ∧ ((normalizeError err ctx).diagnosticId
        = jsCoalesce (err.details.bind (·.diagnosticId)) ctx.diagnosticId)
    ∧ ((normalizeError err ctx).logPath
        = jsCoalesce (err.details.bind (·.logPath)) ctx.logPath)
    ∧ (∀ l, (normalizeError err ctx).details = some l →
        alget l "hint" = none ∧ alget l "diagnosticId" = none ∧ alget l "logPath" = none)
    ∧ (∀ d, err.details = some d → d.rest.filter nonMetaKey = [] →
        (normalizeError err ctx).details = none)
    ∧ (err.details.bind (·.hint) = none →
        (normalizeError err ctx).hint = some (defaultHintForCode err.code))
    ∧ (∀ d s, err.code = .COMMAND_FAILED → err.details = some d →
        alget d.rest "processExitError" = some (.bool true) →
        alget d.rest "stderr" = some (.str s) →
        (normalizeError err ctx).message
          = ((((splitOnNewline s.data).map (fun cs => jsTrim ⟨cs⟩)).find? informativeLine).map
              truncateStderrLine).getD err.message) := by
  refine ⟨?_, ?_, ?_, ?_, ?_, ?_, ?_⟩
  · rw [normalizeError_hint_def]
    cases err.details <;> rfl
  · rw [normalizeError_diagnosticId_def]
    cases err.details <;> rfl
  · rw [normalizeError_logPath_def]
    cases err.details <;> rfl
  · intro l hl
    rw [normalizeError_details_def] at hl
    cases herr : err.details with
    | none => rw [herr] at hl; exact absurd hl (by simp [stripDiagnosticMeta])
    | some d =>
      rw [herr] at hl
      have hl' : (if ((redactDiagnosticData d).rest.filter nonMetaKey).isEmpty then none
          else some ((redactDiagnosticData d).rest.filter nonMetaKey)) = some l := hl
      by_cases hempty : ((redactDiagnosticData d).rest.filter nonMetaKey).isEmpty
      · rw [if_pos hempty] at hl'; exact absurd hl' (by simp)
      · rw [if_neg hempty] at hl'
        have hl2 : l = (redactDiagnosticData d).rest.filter nonMetaKey :=
          (Option.some_injective _ hl').symm
        subst hl2
        refine ⟨?_, ?_, ?_⟩ <;>
          · apply alget_eq_none_of_all_ne
            intro x hx
            have hq := List.of_mem_filter hx
            simp only [nonMetaKey, Bool.decide_and, Bool.and_eq_true, decide_eq_true_eq] at hq
            tauto
  · intro d hd hfilt
    rw [normalizeError_details_def, hd]
    have hz : (redactDiagnosticData d).rest.filter nonMetaKey = [] := by
      show (d.rest.map redactEntry).filter nonMetaKey = []
      rw [filter_nonMeta_map_redact, hfilt, List.map_nil]
    show (if ((redactDiagnosticData d).rest.filter nonMetaKey).isEmpty then none
        else some ((redactDiagnosticData d).rest.filter nonMetaKey)) = none
    rw [if_pos (by rw [hz]; rfl)]
  · intro hnone
    rw [normalizeError_hint_def]
    cases herr : err.details with
    | none => rfl
    | some d =>
      rw [herr] at hnone
      have : d.hint = none := by simpa using hnone
      show jsCoalesce (redactDiagnosticData d).hint _ = _
      rw [redact_hint, this]
      rfl
  · intro d s hcode hd hexit hstderr
    have hexit' : alget (redactDiagnosticData d).rest "processExitError" = some (.bool true) := by
      show alget (d.rest.map redactEntry) "processExitError" = _
      rw [alget_map_redactEntry _ _ (by decide)]
      exact hexit
    have hstderr' : alget (redactDiagnosticData d).rest "stderr" = some (.str s) := by
      show alget (d.rest.map redactEntry) "stderr" = _
      rw [alget_map_redactEntry _ _ (by decide)]
      exact hstderr
    rw [normalizeError_message_def, hd, hcode]
    show maybeEnrichCommandFailedMessage .COMMAND_FAILED err.message
        (some (redactDiagnosticData d)) = _
    unfold maybeEnrichCommandFailedMessage
    rw [if_neg (by simp)]
    show (if alget (redactDiagnosticData d).rest "processExitError" ≠ some (JVal.bool true)
        then err.message
        else _) = _
    rw [hexit', if_neg (by simp)]
    show (match firstStderrLine (match alget (redactDiagnosticData d).rest "stderr" with
            | some (JVal.str s) => s
            | _ => "") with
          | none => err.message
          | some excerpt => excerpt) = _
    rw [hstderr']
    show (match firstStderrLine s with
          | none => err.message
          | some excerpt => excerpt) = _
    rw [show firstStderrLine s = firstStderrLine.go (splitOnNewline s.data) from rfl,
      firstStderrLine_go_eq]
    cases hfind : ((splitOnNewline s.data).map (fun cs => jsTrim ⟨cs⟩)).find? informativeLine <;>
      simp

def c9DetA : ErrDetails :=
  { hint := some "custom hint", diagnosticId := some "diag-1", logPath := some "/tmp/diag.log",
    rest := [("token", .str "secret"), ("safe", .str "ok")] }

def c9DetB : ErrDetails :=
  { rest := [("exitCode", .num 1), ("processExitError", .bool true),
             ("stderr", .str "\nOperation not permitted\nUnderlying error details")] }

def c9ErrA : AppError := ⟨.COMMAND_FAILED, "runner failed", some c9DetA⟩

def c9ErrB : AppError := ⟨.COMMAND_FAILED, "xcrun exited with code 1", some c9DetB⟩

/-- Witness for C9 at concrete inputs (mirroring `errors.test.ts`). -/
theorem c9_normalize_error_witness :
    (normalizeError c9ErrA {}).hint = some "custom hint"
    ∧ (normalizeError c9ErrB {}).message = "Operation not permitted"
    ∧ (normalizeError ⟨.INVALID_ARGS, "bad argument", none⟩ {}).hint
        = some "Check command arguments and run --help for usage examples." := by
  refine ⟨?_, ?_, ?_⟩
  · rw [(c9_normalize_error c9ErrA {}).1]
    decide
  · rw [(c9_normalize_error c9ErrB {}).2.2.2.2.2.2 c9DetB
      "\nOperation not permitted\nUnderlying error details" rfl rfl (by decide) (by decide)]
    decide
  · rw [(c9_normalize_error ⟨.INVALID_ARGS, "bad argument", none⟩ {}).2.2.2.2.2.1 rfl]
    rfl

/-- **C8.**  For `POST /rpc`: an unsupported method yields JSON-RPC `-32601`
with HTTP 404; absent or non-object params yield `-32602` with HTTP 400; a
downstream daemon failure yields `-32000` with HTTP status derived from the
normalized error code — `INVALID_ARGS`→400, `UNAUTHORIZED`→401,
`SESSION_NOT_FOUND`→404, every other code→500. -/
theorem c8_rpc_status_mapping (handleReq : DaemonRequest → DaemonResponse)
    (rpc : RpcRequest) (h : HttpHeaders) :
    (∀ m, rpc.jsonrpc = some "2.0" → rpc.method = some m → m ∉ supportedRpcMethods →
      handleRpcPost handleReq rpc h
        = (404, createRpcError rpc.id (-32601) ("Method not found: " ++ m)))
    ∧ (∀ m, rpc.jsonrpc = some "2.0" → rpc.method = some m → m ∈ supportedRpcMethods →
        (rpc.params = none ∨ rpc.params = some .nullLit ∨ rpc.params = some .prim) →
        handleRpcPost handleReq rpc h = (400, createRpcError rpc.id (-32602) "Invalid params"))
    ∧ (∀ m p dreq e, rpc.jsonrpc = some "2.0" → rpc.method = some m →
        m ∈ supportedRpcMethods →
        rpcParamsObject rpc.params = some p →
        methodToDaemonRequest m p h = .ok dreq →
        ¬ (m ∈ commandRpcMethods ∧ dreq.command = "") →
        handleReq dreq = .err e →
        handleRpcPost handleReq rpc h
          = (statusCodeForNormalizedError e.code,
             createRpcError rpc.id (-32000) e.message (some e)))
    ∧ statusCodeForNormalizedError .INVALID_ARGS = 400
    ∧ statusCodeForNormalizedError .UNAUTHORIZED = 401
    ∧ statusCodeForNormalizedError .SESSION_NOT_FOUND = 404
    ∧ (∀ c, c ≠ ErrorCode.INVALID_ARGS → c ≠ ErrorCode.UNAUTHORIZED →
        c ≠ ErrorCode.SESSION_NOT_FOUND → statusCodeForNormalizedError c = 500) := by
  refine ⟨?_, ?_, ?_, rfl, rfl, rfl, ?_⟩
  · intro m hj hm hsup
    simp [handleRpcPost, hj, hm, hsup]
  · intro m hj hm hsup hparams
    have hobj : rpcParamsObject rpc.params = none := by
      rcases hparams with hp | hp | hp <;> rw [hp] <;> rfl
    simp [handleRpcPost, hj, hm, hsup, hobj]
  · intro m p dreq e hj hm hsup hobj hreq hcmd hresp
    simp [handleRpcPost, hj, hm, hsup, hobj, hreq, hcmd, hresp]
  · intro c h1 h2 h3
    cases c <;> simp_all [statusCodeForNormalizedError]

def c8Err : NormalizedError :=
  { code := .SESSION_NOT_FOUND, message := "No active session. Run open first.",
    hint := none, diagnosticId := none, logPath := none, details := none }

def c8Handle : DaemonRequest → DaemonResponse := fun _ => .err c8Err

def c8Params : RpcParams := { token := some "t", command := some "session_list" }

def c8Rpc1 : RpcRequest :=
  { jsonrpc := some "2.0", id := some (.str "1"), method := some "nope.method" }

def c8Rpc2 : RpcRequest :=
  { jsonrpc := some "2.0", method := some "agent_device.command", params := none }

def c8Rpc3 : RpcRequest :=
  { jsonrpc := some "2.0", method := some "agent_device.command",
    params := some (.obj c8Params) }

/-- Witness for C8 at concrete requests. -/
theorem c8_rpc_status_mapping_witness :
    handleRpcPost c8Handle c8Rpc1 {}
      = (404, createRpcError (some (.str "1")) (-32601) "Method not found: nope.method")
    ∧ handleRpcPost c8Handle c8Rpc2 {}
      = (400, createRpcError none (-32602) "Invalid params")
    ∧ handleRpcPost c8Handle c8Rpc3 {}
      = (404, createRpcError none (-32000) "No active session. Run open first." (some c8Err)) := by
  refine ⟨?_, ?_, ?_⟩
  · exact (c8_rpc_status_mapping c8Handle _ {}).1 "nope.method" rfl rfl (by decide)
  · exact (c8_rpc_status_mapping c8Handle _ {}).2.1 "agent_device.command" rfl rfl
      (by decide) (Or.inl rfl)
  · exact (c8_rpc_status_mapping c8Handle _ {}).2.2.1 "agent_device.command" c8Params
      (toDaemonRequest c8Params {}) c8Err rfl rfl (by decide) rfl rfl (by decide) rfl

theorem normalizeLeaseBackend_error_code (raw : Option String) (e : AppError)
    (h : normalizeLeaseBackend raw = .error e) : e.code = .INVALID_ARGS := by
  simp only [normalizeLeaseBackend] at h
  split at h
  · exact absurd h (by simp)
  · injection h with h'
    rw [← h']

theorem resolveLeaseTtlMs_error_code (cfg : LeaseRegistryConfig) (raw : Option Int)
    (e : AppError) (h : resolveLeaseTtlMs cfg raw = .error e) : e.code = .INVALID_ARGS := by
  cases raw with
  | none => exact absurd h (by simp [resolveLeaseTtlMs])
  | some v =>
    simp only [resolveLeaseTtlMs] at h
    split at h
    · injection h with h'
      rw [← h']
      rfl
    · exact absurd h (by simp)

theorem resolveLeaseTtlMs_out_of_range (cfg : LeaseRegistryConfig) (t : Int)
    (hout : t < cfg.minLeaseTtlMs ∨ t > cfg.maxLeaseTtlMs) :
    resolveLeaseTtlMs cfg (some t) = .error (ttlRangeError cfg) := by
  simp only [resolveLeaseTtlMs]
  rw [if_pos hout]

theorem allocateLease_ok_stamps (cfg : LeaseRegistryConfig) (now : Int) (entropy : List Nat)
    (req : AllocateLeaseRequest) (st st' : RegistryState) (l : SimulatorLease)
    (h : allocateLease cfg now entropy req st = (st', .ok l)) :
    ∃ ttl, resolveLeaseTtlMs cfg req.ttlMs = .ok ttl
      ∧ l.heartbeatAt = now ∧ l.expiresAt = now + ttl := by
  cases hb : normalizeLeaseBackend req.backend with
  | error e =>
    simp only [allocateLease, hb] at h
    exact absurd (congrArg Prod.snd h) (by simp)
  | ok backend =>
  cases ht : normalizeTenantId (some req.tenantId) with
  | none =>
    simp only [allocateLease, hb, ht] at h
    exact absurd (congrArg Prod.snd h) (by simp)
  | some tenantId =>
  cases hrn : normalizeRunId (some req.runId) with
  | none =>
    simp only [allocateLease, hb, ht, hrn] at h
    exact absurd (congrArg Prod.snd h) (by simp)
  | some runId =>
  cases hr : resolveLeaseTtlMs cfg req.ttlMs with
  | error e =>
    simp only [allocateLease, hb, ht, hrn, hr] at h
    exact absurd (congrArg Prod.snd h) (by simp)
  | ok ttl =>
  refine ⟨ttl, rfl, ?_⟩
  simp only [allocateLease, hb, ht, hrn, hr] at h
  cases hbind : alget (cleanupExpiredLeases now st).runBindings (bindingKey tenantId runId backend) with
  | some existingId =>
    simp only [hbind] at h
    cases hlease : alget (cleanupExpiredLeases now st).leases existingId with
    | some existingLease =>
      simp only [hlease, refreshLease] at h
      have hl := congrArg Prod.snd h
      simp only at hl
      injection hl with hl'
      rw [← hl']
      exact ⟨rfl, rfl⟩
    | none =>
      simp only [hlease] at h
      cases hc : enforceCapacity cfg backend
        { cleanupExpiredLeases now st with
          runBindings := aldel (cleanupExpiredLeases now st).runBindings
            (bindingKey tenantId runId backend) } with
      | error e =>
        simp only [allocateFresh, hc] at h
        exact absurd (congrArg Prod.snd h) (by simp)
      | ok u =>
        simp only [allocateFresh, hc] at h
        have hl := congrArg Prod.snd h
        simp only at hl
        injection hl with hl'
        rw [← hl']
        exact ⟨rfl, rfl⟩
  | none =>
    simp only [hbind] at h
    cases hc : enforceCapacity cfg backend (cleanupExpiredLeases now st) with
    | error e =>
      simp only [allocateFresh, hc] at h
      exact absurd (congrArg Prod.snd h) (by simp)
    | ok u =>
      simp only [allocateFresh, hc] at h
      have hl := congrArg Prod.snd h
      simp only at hl
      injection hl with hl'
      rw [← hl']
      exact ⟨rfl, rfl⟩

theorem heartbeatLease_ok_stamps (cfg : LeaseRegistryConfig) (now : Int)
    (req : HeartbeatLeaseRequest) (st st' : RegistryState) (l : SimulatorLease)
    (h : heartbeatLease cfg now req st = (st', .ok l)) :
    ∃ ttl, resolveLeaseTtlMs cfg req.ttlMs = .ok ttl
      ∧ l.heartbeatAt = now ∧ l.expiresAt = now + ttl := by
  cases hid : normalizeLeaseId (some req.leaseId) with
  | none =>
    simp only [heartbeatLease, hid] at h
    exact absurd (congrArg Prod.snd h) (by simp)
  | some leaseId =>
  cases hlease : alget (cleanupExpiredLeases now st).leases leaseId with
  | none =>
    simp only [heartbeatLease, hid, hlease] at h
    exact absurd (congrArg Prod.snd h) (by simp)
  | some lease =>
  cases hscope : assertOptionalScopeMatch lease req.tenantId req.runId with
  | error e =>
    simp only [heartbeatLease, hid, hlease, hscope] at h
    exact absurd (congrArg Prod.snd h) (by simp)
  | ok u =>
  cases hr : resolveLeaseTtlMs cfg req.ttlMs with
  | error e =>
    simp only [heartbeatLease, hid, hlease, hscope, hr] at h
    exact absurd (congrArg Prod.snd h) (by simp)
  | ok ttl =>
  refine ⟨ttl, rfl, ?_⟩
  simp only [heartbeatLease, hid, hlease, hscope, hr, refreshLease] at h
  have hl := congrArg Prod.snd h
  simp only at hl
  injection hl with hl'
  rw [← hl']
  exact ⟨rfl, rfl⟩

theorem allocateLease_ttl_out_of_range (cfg : LeaseRegistryConfig) (now : Int)
    (entropy : List Nat) (req : AllocateLeaseRequest) (st : RegistryState) (t : Int)
    (ht : req.ttlMs = some t) (hout : t < cfg.minLeaseTtlMs ∨ t > cfg.maxLeaseTtlMs) :
    ∃ st' e, allocateLease cfg now entropy req st = (st', .error e)
      ∧ e.code = .INVALID_ARGS := by
  have he : resolveLeaseTtlMs cfg req.ttlMs = .error (ttlRangeError cfg) := by
    rw [ht]
    exact resolveLeaseTtlMs_out_of_range cfg t hout
  cases hb : normalizeLeaseBackend req.backend with
  | error e' =>
    refine ⟨st, e', ?_, normalizeLeaseBackend_error_code _ _ hb⟩
    simp only [allocateLease, hb]
  | ok backend =>
  cases htn : normalizeTenantId (some req.tenantId) with
  | none =>
    refine ⟨st, invalidTenantIdError, ?_, rfl⟩
    simp only [allocateLease, hb, htn]
  | some tenantId =>
  cases hrn : normalizeRunId (some req.runId) with
  | none =>
    refine ⟨st, invalidRunIdError, ?_, rfl⟩
    simp only [allocateLease, hb, htn, hrn]
  | some runId =>
  refine ⟨cleanupExpiredLeases now st, ttlRangeError cfg, ?_, rfl⟩
  simp only [allocateLease, hb, htn, hrn, he]

theorem heartbeatLease_ttl_out_of_range (cfg : LeaseRegistryConfig) (now : Int)
    (req : HeartbeatLeaseRequest) (st : RegistryState) (t : Int)
    (ht : req.ttlMs = some t) (hout : t < cfg.minLeaseTtlMs ∨ t > cfg.maxLeaseTtlMs) :
    ∃ st' e, heartbeatLease cfg now req st = (st', .error e) := by
  have he : resolveLeaseTtlMs cfg req.ttlMs = .error (ttlRangeError cfg) := by
    rw [ht]
    exact resolveLeaseTtlMs_out_of_range cfg t hout
  cases hid : normalizeLeaseId (some req.leaseId) with
  | none => exact ⟨st, invalidLeaseIdError, by simp only [heartbeatLease, hid]⟩
  | some leaseId =>
  cases hlease : alget (cleanupExpiredLeases now st).leases leaseId with
  | none =>
    exact ⟨cleanupExpiredLeases now st, leaseNotFoundError,
      by simp only [heartbeatLease, hid, hlease]⟩
  | some lease =>
  cases hscope : assertOptionalScopeMatch lease req.tenantId req.runId with
  | error e' =>
    exact ⟨cleanupExpiredLeases now st, e', by simp only [heartbeatLease, hid, hlease, hscope]⟩
  | ok u =>
    exact ⟨cleanupExpiredLeases now st, ttlRangeError cfg,
      by simp only [heartbeatLease, hid, hlease, hscope, he]⟩

/-- **C1 (amended).**  Under the default registry configuration
(`ttl=60s`, `min=5s`, `max=600s`), every lease returned by `allocateLease` or
`heartbeatLease` has `heartbeatAt = now` and `expiresAt = now + ttl`, where
`ttl` is the 60 s default when `ttlMs` is omitted and `ttlMs` itself when it
is supplied (necessarily within `[min, max]`); a supplied `ttlMs` below the
minimum or above the maximum is rejected — allocation with `INVALID_ARGS`,
heartbeat with an error — rather than clamped into range. -/
theorem c1_ttl_resolution (now : Int) (st : RegistryState) (entropy : List Nat) :
    (∀ (req : AllocateLeaseRequest) (st' : RegistryState) (l : SimulatorLease),
        allocateLease defaultLeaseConfig now entropy req st = (st', .ok l) →
        l.heartbeatAt = now
        ∧ (req.ttlMs = none → l.expiresAt = now + 60000)
        ∧ (∀ t, req.ttlMs = some t → l.expiresAt = now + t))
    ∧ (∀ (req : AllocateLeaseRequest) (t : Int), req.ttlMs = some t →
        (t < 5000 ∨ t > 600000) →
        ∃ st' e, allocateLease defaultLeaseConfig now entropy req st = (st', .error e)
          ∧ e.code = .INVALID_ARGS)
    ∧ (∀ (req : HeartbeatLeaseRequest) (st' : RegistryState) (l : SimulatorLease),
        heartbeatLease defaultLeaseConfig now req st = (st', .ok l) →
        l.heartbeatAt = now
        ∧ (req.ttlMs = none → l.expiresAt = now + 60000)
        ∧ (∀ t, req.ttlMs = some t → l.expiresAt = now + t))
    ∧ (∀ (req : HeartbeatLeaseRequest) (t : Int), req.ttlMs = some t →
        (t < 5000 ∨ t > 600000) →
        ∃ st' e, heartbeatLease defaultLeaseConfig now req st = (st', .error e))
    ∧ defaultLeaseConfig.defaultLeaseTtlMs = 60000
    ∧ defaultLeaseConfig.minLeaseTtlMs = 5000
    ∧ defaultLeaseConfig.maxLeaseTtlMs = 600000 := by
  refine ⟨?_, ?_, ?_, ?_, rfl, rfl, rfl⟩
  · intro req st' l h
    obtain ⟨ttl, hres, hhb, hexp⟩ := allocateLease_ok_stamps _ _ _ _ _ _ _ h
    refine ⟨hhb, ?_, ?_⟩
    · intro hnone
      rw [hnone] at hres
      have : ttl = 60000 := by
        have := hres.symm
        injection this
      rw [hexp, this]
    · intro t hsome
      rw [hsome] at hres
      simp only [resolveLeaseTtlMs] at hres
      split at hres
      · exact absurd hres (by simp)
      · have : ttl = t := by injection hres with h'; rw [← h']
        rw [hexp, this]
  · intro req t hsome hout
    exact allocateLease_ttl_out_of_range defaultLeaseConfig now entropy req st t hsome
      (by simpa [defaultLeaseConfig, mkLeaseRegistryConfig] using hout)
  · intro req st' l h
    obtain ⟨ttl, hres, hhb, hexp⟩ := heartbeatLease_ok_stamps _ _ _ _ _ _ h
    refine ⟨hhb, ?_, ?_⟩
    · intro hnone
      rw [hnone] at hres
      have : ttl = 60000 := by
        have := hres.symm
        injection this
      rw [hexp, this]
    · intro t hsome
      rw [hsome] at hres
      simp only [resolveLeaseTtlMs] at hres
      split at hres
      · exact absurd hres (by simp)
      · have : ttl = t := by injection hres with h'; rw [← h']
        rw [hexp, this]
  · intro req t hsome hout
    exact heartbeatLease_ttl_out_of_range defaultLeaseConfig now req st t hsome
      (by simpa [defaultLeaseConfig, mkLeaseRegistryConfig] using hout)

def c1Entropy : List Nat := [1,2,3,4,5,6,7,8,9,10,11,12,13,14,15,16]

def c1ReqLow : AllocateLeaseRequest := { tenantId := "t", runId := "r", ttlMs := some 1000 }

/-- Counterexample to C1 as stated: a `ttlMs` of 1000 ms (below the 5000 ms
minimum) is rejected with `INVALID_ARGS`; no lease with a clamped
`expiresAt = now + 5000` is returned. -/
theorem c1_counterexample :
    (allocateLease defaultLeaseConfig 1000 c1Entropy c1ReqLow {}).2.mapError (·.code)
      = .error .INVALID_ARGS := by decide

def c1ReqDefault : AllocateLeaseRequest := { tenantId := "t", runId := "r" }

def c1Lease : SimulatorLease :=
  { leaseId := bytesToHex c1Entropy, tenantId := "t", runId := "r", backend := .iosSimulator,
    createdAt := 1000, heartbeatAt := 1000, expiresAt := 61000 }

def c1St : RegistryState :=
  { leases := [(bytesToHex c1Entropy, c1Lease)]
    runBindings := [("t:r:ios-simulator", bytesToHex c1Entropy)] }

/-- Witness for C1 at a concrete allocation with `ttlMs` omitted. -/
theorem c1_ttl_resolution_witness :
    c1Lease.heartbeatAt = 1000 ∧ c1Lease.expiresAt = 1000 + 60000
    ∧ defaultLeaseConfig.minLeaseTtlMs = 5000 := by
  have h := (c1_ttl_resolution 1000 {} c1Entropy).1 c1ReqDefault c1St c1Lease (by decide)
  exact ⟨h.1, h.2.1 rfl, (c1_ttl_resolution 1000 {} c1Entropy).2.2.2.2.2.1⟩

theorem char_toNat_ofNat (n : Nat) (h : n < 55296) : (Char.ofNat n).toNat = n := by
  unfold Char.ofNat
  rw [dif_pos (Or.inl h)]
  rfl

theorem hexDigit_isHexCharLower (n : Nat) (h : n < 16) :
    isHexCharLower (hexDigit n) = true := by
  interval_cases n <;> decide

theorem bytesToHex_length (bs : List Nat) : (bytesToHex bs).data.length = 2 * bs.length := by
  induction bs with
  | nil => rfl
  | cons b t ih =>
    show (hexDigit (b / 16 % 16) :: hexDigit (b % 16) :: (bytesToHex t).data).length = _
    simp only [List.length_cons, ih, List.length_cons]
    omega

theorem bytesToHex_hexLower (bs : List Nat) :
    (bytesToHex bs).data.all isHexCharLower = true := by
  induction bs with
  | nil => rfl
  | cons b t ih =>
    show (hexDigit (b / 16 % 16) :: hexDigit (b % 16) :: (bytesToHex t).data).all _ = true
    simp only [List.all_cons, Bool.and_eq_true]
    exact ⟨hexDigit_isHexCharLower _ (Nat.mod_lt _ (by norm_num)),
      hexDigit_isHexCharLower _ (Nat.mod_lt _ (by norm_num)), ih⟩

theorem jsCharLower_hex_iff (c : Char) :
    isHexCharLower (jsCharLower c) = isHexCharCI c := by
  by_cases hc : 65 ≤ c.toNat ∧ c.toNat ≤ 90
  · have hlt : c.toNat + 32 < 55296 := by omega
    unfold jsCharLower isHexCharLower isHexCharCI
    rw [if_pos hc, char_toNat_ofNat _ hlt, decide_eq_decide]
    omega
  · unfold jsCharLower isHexCharLower isHexCharCI
    rw [if_neg hc, decide_eq_decide]
    omega

theorem jsLower_data (s : String) : (jsLower s).data = s.data.map jsCharLower := rfl

theorem jsLower_length (s : String) : (jsLower s).data.length = s.data.length := by
  rw [jsLower_data, List.length_map]

theorem jsLower_eq_empty_iff (s : String) : jsLower s = "" ↔ s = "" := by
  constructor
  · intro h
    have hd : s.data.map jsCharLower = ([] : List Char) := congrArg String.data h
    have : s.data = [] := List.map_eq_nil_iff.mp hd
    exact congrArg String.mk this
  · intro h
    rw [h]
    rfl

theorem all_hexCI_iff_lower (l : List Char) :
    l.all isHexCharCI = (l.map jsCharLower).all isHexCharLower := by
  induction l with
  | nil => rfl
  | cons c t ih => simp [List.all_cons, jsCharLower_hex_iff, ih]

theorem normalizeLeaseId_some_spec (s v : String)
    (h : normalizeLeaseId (some s) = some v) :
    v = jsLower (jsTrim s) ∧ 16 ≤ v.data.length ∧ v.data.length ≤ 128
      ∧ v.data.all isHexCharLower = true := by
  simp only [normalizeLeaseId] at h
  by_cases h0 : s = ""
  · rw [if_pos h0] at h
    exact absurd h (by simp)
  · rw [if_neg h0] at h
    by_cases h1 : jsTrim s = ""
    · rw [if_pos h1] at h
      exact absurd h (by simp)
    · rw [if_neg h1] at h
      by_cases h2 : (jsTrim s).data.length ≥ 16 ∧ (jsTrim s).data.length ≤ 128
          ∧ (jsTrim s).data.all isHexCharCI = true
      · rw [if_pos h2] at h
        have hv : v = jsLower (jsTrim s) := (Option.some_injective _ h).symm
        subst hv
        refine ⟨rfl, ?_, ?_, ?_⟩
        · rw [jsLower_length]; exact h2.1
        · rw [jsLower_length]; exact h2.2.1
        · rw [jsLower_data, ← all_hexCI_iff_lower]; exact h2.2.2
      · rw [if_neg h2] at h
        exact absurd h (by simp)

theorem normalizeLeaseId_case_insensitive (s₁ s₂ : String)
    (h : jsLower (jsTrim s₁) = jsLower (jsTrim s₂)) :
    normalizeLeaseId (some s₁) = normalizeLeaseId (some s₂) := by
  have hlen : (jsTrim s₁).data.length = (jsTrim s₂).data.length := by
    have hc := congrArg (fun t : String => t.data.length) h
    dsimp only at hc
    rw [jsLower_length, jsLower_length] at hc
    exact hc
  by_cases h1 : jsTrim s₁ = ""
  · have h2 : jsTrim s₂ = "" := by
      rw [h1] at h
      exact (jsLower_eq_empty_iff _).mp (by rw [← h]; rfl)
    simp only [normalizeLeaseId]
    by_cases e1 : s₁ = "" <;> by_cases e2 : s₂ = "" <;>
      simp [e1, e2, h1, h2]
  · have h2 : jsTrim s₂ ≠ "" := by
      intro hc
      apply h1
      rw [hc] at h
      exact (jsLower_eq_empty_iff _).mp (by rw [h]; rfl)
    have e1 : s₁ ≠ "" := by
      intro hc
      apply h1
      rw [hc]
      rfl
    have e2 : s₂ ≠ "" := by
      intro hc
      apply h2
      rw [hc]
      rfl
    have hall : (jsTrim s₁).data.all isHexCharCI = (jsTrim s₂).data.all isHexCharCI := by
      rw [all_hexCI_iff_lower, all_hexCI_iff_lower, ← jsLower_data, ← jsLower_data, h]
    simp only [normalizeLeaseId]
    rw [if_neg e1, if_neg e2]
    simp only [if_neg h1, if_neg h2]
    by_cases hshape : (jsTrim s₁).data.length ≥ 16 ∧ (jsTrim s₁).data.length ≤ 128
        ∧ (jsTrim s₁).data.all isHexCharCI = true
    · have hshape₂ : (jsTrim s₂).data.length ≥ 16 ∧ (jsTrim s₂).data.length ≤ 128
          ∧ (jsTrim s₂).data.all isHexCharCI = true := by
        rw [← hlen, ← hall]
        exact hshape
      rw [if_pos hshape, if_pos hshape₂, h]
    · have hshape₂ : ¬ ((jsTrim s₂).data.length ≥ 16 ∧ (jsTrim s₂).data.length ≤ 128
          ∧ (jsTrim s₂).data.all isHexCharCI = true) := by
        rw [← hlen, ← hall]
        exact hshape
      rw [if_neg hshape, if_neg hshape₂]

/-- **C10.**  Lease ids are matched case-insensitively at the registry's
public interface: `allocateLease` mints `crypto.randomBytes(16)` as a
lowercase 32-hex-character id; `normalizeLeaseId` maps a trimmed 16–128
character hex id to its lowercase form (so two ids differing only in hex
letter case normalize identically, and `heartbeatLease`, `releaseLease` and
`assertLeaseAdmission` treat them as the same lease); a supplied lease id
outside that shape (or empty) fails with `INVALID_ARGS`. -/
theorem c10_lease_id_normalization :
    (∀ bs : List Nat, bs.length = 16 →
        (bytesToHex bs).data.length = 32 ∧ (bytesToHex bs).data.all isHexCharLower = true)
    ∧ (∀ (cfg : LeaseRegistryConfig) (now : Int) (entropy : List Nat)
          (req : AllocateLeaseRequest) (st st' : RegistryState) (l : SimulatorLease),
        st.runBindings = [] →
        allocateLease cfg now entropy req st = (st', .ok l) →
        l.leaseId = bytesToHex entropy)
    ∧ (∀ s v, normalizeLeaseId (some s) = some v →
        v = jsLower (jsTrim s) ∧ 16 ≤ v.data.length ∧ v.data.length ≤ 128
          ∧ v.data.all isHexCharLower = true)
    ∧ (∀ s₁ s₂, jsLower (jsTrim s₁) = jsLower (jsTrim s₂) →
        normalizeLeaseId (some s₁) = normalizeLeaseId (some s₂))
    ∧ (∀ (cfg : LeaseRegistryConfig) (now : Int) (st : RegistryState)
          (req : HeartbeatLeaseRequest), normalizeLeaseId (some req.leaseId) = none →
        heartbeatLease cfg now req st = (st, .error invalidLeaseIdError))
    ∧ (∀ (now : Int) (st : RegistryState) (req : ReleaseLeaseRequest),
        normalizeLeaseId (some req.leaseId) = none →
        releaseLease now req st = (st, .error invalidLeaseIdError))
    ∧ (∀ (now : Int) (st : RegistryState) (req : AdmissionRequest)
          (backend : LeaseBackendTy) (tenantId runId : String),
        normalizeLeaseBackend req.backend = .ok backend →
        normalizeTenantId req.tenantId = some tenantId →
        normalizeRunId req.runId = some runId →
        normalizeLeaseId req.leaseId = none →
        ∃ e, assertLeaseAdmission now req st = (st, .error e) ∧ e.code = .INVALID_ARGS)
    ∧ (∀ (cfg : LeaseRegistryConfig) (now : Int) (st : RegistryState)
          (r₁ r₂ : HeartbeatLeaseRequest),
        r₁.tenantId = r₂.tenantId → r₁.runId = r₂.runId → r₁.ttlMs = r₂.ttlMs →
        jsLower (jsTrim r₁.leaseId) = jsLower (jsTrim r₂.leaseId) →
        heartbeatLease cfg now r₁ st = heartbeatLease cfg now r₂ st)
    ∧ (∀ (now : Int) (st : RegistryState) (r₁ r₂ : ReleaseLeaseRequest),
        r₁.tenantId = r₂.tenantId → r₁.runId = r₂.runId →
        jsLower (jsTrim r₁.leaseId) = jsLower (jsTrim r₂.leaseId) →
        releaseLease now r₁ st = releaseLease now r₂ st) := by
  refine ⟨?_, ?_, ?_, ?_, ?_, ?_, ?_, ?_, ?_⟩
  · intro bs hlen
    refine ⟨?_, bytesToHex_hexLower bs⟩
    rw [bytesToHex_length, hlen]
  · intro cfg now entropy req st st' l hrb h
    cases hb : normalizeLeaseBackend req.backend with
    | error e =>
      simp only [allocateLease, hb] at h
      exact absurd (congrArg Prod.snd h) (by simp)
    | ok backend =>
    cases ht : normalizeTenantId (some req.tenantId) with
    | none =>
      simp only [allocateLease, hb, ht] at h
      exact absurd (congrArg Prod.snd h) (by simp)
    | some tenantId =>
    cases hrn : normalizeRunId (some req.runId) with
    | none =>
      simp only [allocateLease, hb, ht, hrn] at h
      exact absurd (congrArg Prod.snd h) (by simp)
    | some runId =>
    cases hr : resolveLeaseTtlMs cfg req.ttlMs with
    | error e =>
      simp only [allocateLease, hb, ht, hrn, hr] at h
      exact absurd (congrArg Prod.snd h) (by simp)
    | ok ttl =>
    have hbind : alget (cleanupExpiredLeases now st).runBindings
        (bindingKey tenantId runId backend) = none := by
      simp [cleanupExpiredLeases, hrb, alget]
    simp only [allocateLease, hb, ht, hrn, hr, hbind] at h
    cases hc : enforceCapacity cfg backend (cleanupExpiredLeases now st) with
    | error e =>
      simp only [allocateFresh, hc] at h
      exact absurd (congrArg Prod.snd h) (by simp)
    | ok u =>
      simp only [allocateFresh, hc] at h
      have hl := congrArg Prod.snd h
      simp only at hl
      injection hl with hl'
      rw [← hl']
  · exact normalizeLeaseId_some_spec
  · exact normalizeLeaseId_case_insensitive
  · intro cfg now st req hid
    simp only [heartbeatLease, hid]
  · intro now st req hid
    simp only [releaseLease, hid]
  · intro now st req backend tenantId runId hb ht hrn hid
    refine ⟨⟨.INVALID_ARGS, "tenant isolation requires lease id.", none⟩, ?_, rfl⟩
    simp only [assertLeaseAdmission, hb, ht, hrn, hid]
  · intro cfg now st r₁ r₂ ht hr htt hL
    have hid := normalizeLeaseId_case_insensitive _ _ hL
    simp only [heartbeatLease, hid, ht, hr, htt]
  · intro now st r₁ r₂ ht hr hL
    have hid := normalizeLeaseId_case_insensitive _ _ hL
    simp only [releaseLease, hid, ht, hr]

/-- Witness for C10 at concrete ids. -/
theorem c10_lease_id_normalization_witness :
    normalizeLeaseId (some "AbCdEf0123456789") = normalizeLeaseId (some "aBcDeF0123456789")
    ∧ (bytesToHex c1Entropy).data.length = 32
    ∧ heartbeatLease defaultLeaseConfig 0 { leaseId := "not-hex" } {}
        = ({}, .error invalidLeaseIdError) := by
  refine ⟨?_, ?_, ?_⟩
  · exact c10_lease_id_normalization.2.2.2.1 "AbCdEf0123456789" "aBcDeF0123456789" (by decide)
  · exact (c10_lease_id_normalization.1 c1Entropy rfl).1
  · exact c10_lease_id_normalization.2.2.2.2.1 defaultLeaseConfig 0 {}
      { leaseId := "not-hex" } (by decide)

theorem resolveLeaseTtlMs_pos (cfg : LeaseRegistryConfig) (raw : Option Int) (ttl : Int)
    (hdef : 1 ≤ cfg.defaultLeaseTtlMs) (hmin : 1 ≤ cfg.minLeaseTtlMs)
    (h : resolveLeaseTtlMs cfg raw = .ok ttl) : 1 ≤ ttl := by
  cases raw with
  | none =>
    simp only [resolveLeaseTtlMs] at h
    injection h with h'
    omega
  | some v =>
    simp only [resolveLeaseTtlMs] at h
    split at h
    · exact absurd h (by simp)
    · injection h with h'
      rename_i hc
      push_neg at hc
      omega

theorem alget_map_set_ne {α : Type} (m : List (String × α)) (k k' : String) (v : α)
    (h : k' ≠ k) :
    alget (m.map (fun p => if p.1 = k then (k, v) else p)) k' = alget m k' := by
  induction m with
  | nil => rfl
  | cons p t ih =>
    by_cases hp : p.1 = k
    · have h1 : ¬ (k = k') := fun hc => h hc.symm
      have h2 : ¬ (p.1 = k') := by rw [hp]; exact h1
      simp only [List.map_cons, if_pos hp, alget, if_neg h1, if_neg h2]
      exact ih
    · simp only [List.map_cons, if_neg hp, alget]
      by_cases h3 : p.1 = k'
      · simp [h3]
      · simp only [if_neg h3]
        exact ih

theorem alget_append_single_ne {α : Type} (m : List (String × α)) (k k' : String) (v : α)
    (h : k' ≠ k) : alget (m ++ [(k, v)]) k' = alget m k' := by
  induction m with
  | nil =>
    have h1 : ¬ (k = k') := fun hc => h hc.symm
    show alget [(k, v)] k' = none
    simp only [alget, if_neg h1]
  | cons p t ih =>
    simp only [List.cons_append, alget]
    by_cases h3 : p.1 = k'
    · simp [h3]
    · simp only [if_neg h3]
      exact ih

theorem alget_alset_ne {α : Type} (m : List (String × α)) (k k' : String) (v : α)
    (h : k' ≠ k) : alget (alset m k v) k' = alget m k' := by
  unfold alset
  split
  · exact alget_map_set_ne m k k' v h
  · exact alget_append_single_ne m k k' v h

theorem alset_mem {α : Type} {m : List (String × α)} {k : String} {v : α}
    {x : String × α} (hx : x ∈ alset m k v) : x = (k, v) ∨ x ∈ m := by
  unfold alset at hx
  split at hx
  · obtain ⟨p, hp, hfx⟩ := List.mem_map.mp hx
    by_cases hpk : p.1 = k
    · rw [if_pos hpk] at hfx
      exact Or.inl hfx.symm
    · rw [if_neg hpk] at hfx
      exact Or.inr (hfx ▸ hp)
  · rcases List.mem_append.mp hx with hmem | hmem
    · exact Or.inr hmem
    · exact Or.inl (by simpa using hmem)

theorem cleanup_leases_unexpired (now : Int) (st : RegistryState) :
    ∀ p ∈ (cleanupExpiredLeases now st).leases, now < p.2.expiresAt := by
  intro p hp
  have := List.of_mem_filter hp
  simpa using this

theorem cleanup_eq_self (now : Int) (st : RegistryState)
    (h : ∀ p ∈ st.leases, now < p.2.expiresAt) :
    cleanupExpiredLeases now st = st := by
  unfold cleanupExpiredLeases
  have h1 : st.leases.filter (fun p => now < p.2.expiresAt) = st.leases :=
    List.filter_eq_self.mpr (fun a ha => by simpa using h a ha)
  have h2 : st.runBindings.filter (fun b =>
      ¬ st.leases.any (fun p => p.2.expiresAt ≤ now ∧ p.2.key = b.1)) = st.runBindings := by
    apply List.filter_eq_self.mpr
    intro b _
    have hany : st.leases.any (fun p => p.2.expiresAt ≤ now ∧ p.2.key = b.1) = false := by
      rw [List.any_eq_false]
      intro p hp
      have := h p hp
      simp only [Bool.decide_and, Bool.and_eq_true, decide_eq_true_eq, not_and]
      intro hc
      omega
    show decide (¬ st.leases.any (fun p => p.2.expiresAt ≤ now ∧ p.2.key = b.1) = true) = true
    rw [hany]
    decide
  rw [h1, h2]

/-- After a successful `allocateLease`, every stored lease is unexpired at
`now`, and the request's binding key maps to the id of a stored lease
carrying the returned lease's id. -/
theorem allocateLease_ok_binding (cfg : LeaseRegistryConfig) (now : Int) (entropy : List Nat)
    (req : AllocateLeaseRequest) (st st₁ : RegistryState) (l₁ : SimulatorLease)
    (hdef : 1 ≤ cfg.defaultLeaseTtlMs) (hmin : 1 ≤ cfg.minLeaseTtlMs)
    (h : allocateLease cfg now entropy req st = (st₁, .ok l₁)) :
    (∀ p ∈ st₁.leases, now < p.2.expiresAt)
    ∧ ∀ backend tenantId runId,
        normalizeLeaseBackend req.backend = .ok backend →
        normalizeTenantId (some req.tenantId) = some tenantId →
        normalizeRunId (some req.runId) = some runId →
        ∃ id₀ lease₀,
          alget st₁.runBindings (bindingKey tenantId runId backend) = some id₀
          ∧ alget st₁.leases id₀ = some lease₀
          ∧ lease₀.leaseId = l₁.leaseId := by
  cases hb : normalizeLeaseBackend req.backend with
  | error e =>
    simp only [allocateLease, hb] at h
    exact absurd (congrArg Prod.snd h) (by simp)
  | ok backend =>
  cases ht : normalizeTenantId (some req.tenantId) with
  | none =>
    simp only [allocateLease, hb, ht] at h
    exact absurd (congrArg Prod.snd h) (by simp)
  | some tenantId =>
  cases hrn : normalizeRunId (some req.runId) with
  | none =>
    simp only [allocateLease, hb, ht, hrn] at h
    exact absurd (congrArg Prod.snd h) (by simp)
  | some runId =>
  cases hr : resolveLeaseTtlMs cfg req.ttlMs with
  | error e =>
    simp only [allocateLease, hb, ht, hrn, hr] at h
    exact absurd (congrArg Prod.snd h) (by simp)
  | ok ttl =>
  have httl : 1 ≤ ttl := resolveLeaseTtlMs_pos cfg req.ttlMs ttl hdef hmin hr
  have hpick : ∀ b' t' r',
      (Except.ok backend : Except AppError LeaseBackendTy) = .ok b' →
      (some tenantId : Option String) = some t' →
      (some runId : Option String) = some r' →
      b' = backend ∧ t' = tenantId ∧ r' = runId := by
    intro b' t' r' hb' ht' hr'
    exact ⟨(Except.ok.inj hb').symm, (Option.some.inj ht').symm, (Option.some.inj hr').symm⟩
  cases hbind : alget (cleanupExpiredLeases now st).runBindings (bindingKey tenantId runId backend) with
  | some existingId =>
    cases hlease : alget (cleanupExpiredLeases now st).leases existingId with
    | some existingLease =>
      simp only [allocateLease, hb, ht, hrn, hr, hbind, hlease, refreshLease,
        SimulatorLease.key] at h
      have hfst := congrArg Prod.fst h
      have hsnd := congrArg Prod.snd h
      simp only at hfst hsnd
      injection hsnd with hl
      constructor
      · intro p hp
        rw [← hfst] at hp
        rcases alset_mem hp with hpe | hpm
        · rw [hpe]
          show now < now + ttl
          omega
        · exact cleanup_leases_unexpired now st p hpm
      · intro b' t' r' hb' ht' hr'
        obtain ⟨hbeq, hteq, hreq⟩ := hpick b' t' r' hb' ht' hr'
        rw [hbeq, hteq, hreq, ← hfst, ← hl]
        dsimp only
        by_cases hkey : bindingKey existingLease.tenantId existingLease.runId existingLease.backend
            = bindingKey tenantId runId backend
        · refine ⟨existingLease.leaseId, { existingLease with heartbeatAt := now, expiresAt := now + ttl }, ?_, ?_, rfl⟩
          · rw [← hkey]
            exact alget_alset_self _ _ _
          · exact alget_alset_self _ _ _
        · by_cases hei : existingId = existingLease.leaseId
          · refine ⟨existingId, { existingLease with heartbeatAt := now, expiresAt := now + ttl }, ?_, ?_, rfl⟩
            · rw [alget_alset_ne _ _ _ _ (fun hc => hkey hc.symm)]
              exact hbind
            · rw [hei]
              exact alget_alset_self _ _ _
          · refine ⟨existingId, existingLease, ?_, ?_, rfl⟩
            · rw [alget_alset_ne _ _ _ _ (fun hc => hkey hc.symm)]
              exact hbind
            · rw [alget_alset_ne _ _ _ _ hei]
              exact hlease
    | none =>
      simp only [allocateLease, hb, ht, hrn, hr, hbind, hlease] at h
      cases hc : enforceCapacity cfg backend
          { cleanupExpiredLeases now st with
            runBindings := aldel (cleanupExpiredLeases now st).runBindings
              (bindingKey tenantId runId backend) } with
      | error e =>
        simp only [allocateFresh, hc] at h
        exact absurd (congrArg Prod.snd h) (by simp)
      | ok u =>
        simp only [allocateFresh, hc] at h
        have hfst := congrArg Prod.fst h
        have hsnd := congrArg Prod.snd h
        simp only at hfst hsnd
        injection hsnd with hl
        constructor
        · intro p hp
          rw [← hfst] at hp
          rcases alset_mem hp with hpe | hpm
          · rw [hpe]
            show now < now + ttl
            omega
          · exact cleanup_leases_unexpired now st p hpm
        · intro b' t' r' hb' ht' hr'
          obtain ⟨hbeq, hteq, hreq⟩ := hpick b' t' r' hb' ht' hr'
          rw [hbeq, hteq, hreq, ← hfst, ← hl]
          dsimp only
          exact ⟨bytesToHex entropy, _, alget_alset_self _ _ _, alget_alset_self _ _ _, rfl⟩
  | none =>
    simp only [allocateLease, hb, ht, hrn, hr, hbind] at h
    cases hc : enforceCapacity cfg backend (cleanupExpiredLeases now st) with
    | error e =>
      simp only [allocateFresh, hc] at h
      exact absurd (congrArg Prod.snd h) (by simp)
    | ok u =>
      simp only [allocateFresh, hc] at h
      have hfst := congrArg Prod.fst h
      have hsnd := congrArg Prod.snd h
      simp only at hfst hsnd
      injection hsnd with hl
      constructor
      · intro p hp
        rw [← hfst] at hp
        rcases alset_mem hp with hpe | hpm
        · rw [hpe]
          show now < now + ttl
          omega
        · exact cleanup_leases_unexpired now st p hpm
      · intro b' t' r' hb' ht' hr'
        obtain ⟨hbeq, hteq, hreq⟩ := hpick b' t' r' hb' ht' hr'
        rw [hbeq, hteq, hreq, ← hfst, ← hl]
        dsimp only
        exact ⟨bytesToHex entropy, _, alget_alset_self _ _ _, alget_alset_self _ _ _, rfl⟩

/-- **C4.**  Lease idempotence on the registry: `allocateLease` immediately
followed by `allocateLease` with the same request returns a lease with the
same `leaseId`; `releaseLease` of a lease id absent from the registry returns
`released = false`; `releaseLease` of an active lease twice returns `true`
then `false`.  (Every constructible configuration satisfies the positive-ttl
side conditions, as the last conjunct shows.) -/
theorem c4_lease_idempotence :
    (∀ (cfg : LeaseRegistryConfig) (now : Int) (ent₁ ent₂ : List Nat)
        (req : AllocateLeaseRequest) (st st₁ st₂ : RegistryState) (l₁ l₂ : SimulatorLease),
        1 ≤ cfg.defaultLeaseTtlMs → 1 ≤ cfg.minLeaseTtlMs →
        allocateLease cfg now ent₁ req st = (st₁, .ok l₁) →
        allocateLease cfg now ent₂ req st₁ = (st₂, .ok l₂) →
        l₂.leaseId = l₁.leaseId)
    ∧ (∀ (now : Int) (req : ReleaseLeaseRequest) (st : RegistryState) (lid : String),
        normalizeLeaseId (some req.leaseId) = some lid →
        alget st.leases lid = none →
        (releaseLease now req st).2 = .ok false)
    ∧ (∀ (now : Int) (req : ReleaseLeaseRequest) (st st₁ : RegistryState),
        releaseLease now req st = (st₁, .ok true) →
        (releaseLease now req st₁).2 = .ok false)
    ∧ (∀ o : LeaseRegistryOptions,
        1 ≤ (mkLeaseRegistryConfig o).defaultLeaseTtlMs
          ∧ 1 ≤ (mkLeaseRegistryConfig o).minLeaseTtlMs) := by
  refine ⟨?_, ?_, ?_, ?_⟩
  · intro cfg now ent₁ ent₂ req st st₁ st₂ l₁ l₂ hdef hmin h₁ h₂
    obtain ⟨hunexp, hfind⟩ := allocateLease_ok_binding cfg now ent₁ req st st₁ l₁ hdef hmin h₁
    obtain ⟨ttl, hr, _, _⟩ := allocateLease_ok_stamps cfg now ent₁ req st st₁ l₁ h₁
    cases hb : normalizeLeaseBackend req.backend with
    | error e =>
      simp only [allocateLease, hb] at h₂
      exact absurd (congrArg Prod.snd h₂) (by simp)
    | ok backend =>
    cases ht : normalizeTenantId (some req.tenantId) with
    | none =>
      simp only [allocateLease, hb, ht] at h₂
      exact absurd (congrArg Prod.snd h₂) (by simp)
    | some tenantId =>
    cases hrn : normalizeRunId (some req.runId) with
    | none =>
      simp only [allocateLease, hb, ht, hrn] at h₂
      exact absurd (congrArg Prod.snd h₂) (by simp)
    | some runId =>
    obtain ⟨id₀, lease₀, hbind, hlease, hid⟩ := hfind backend tenantId runId hb ht hrn
    have hclean : cleanupExpiredLeases now st₁ = st₁ := cleanup_eq_self now st₁ hunexp
    simp only [allocateLease, hb, ht, hrn, hr, hclean, hbind, hlease, refreshLease] at h₂
    have hsnd := congrArg Prod.snd h₂
    simp only at hsnd
    injection hsnd with hl₂
    rw [← hl₂]
    exact hid
  · intro now req st lid hnorm habs
    have habs' : alget (cleanupExpiredLeases now st).leases lid = none :=
      alget_filter_eq_none _ habs
    simp only [releaseLease, hnorm, habs']
  · intro now req st st₁ h
    cases hid : normalizeLeaseId (some req.leaseId) with
    | none =>
      simp only [releaseLease, hid] at h
      exact absurd (congrArg Prod.snd h) (by simp)
    | some lid =>
    cases hlease : alget (cleanupExpiredLeases now st).leases lid with
    | none =>
      simp only [releaseLease, hid, hlease] at h
      exact absurd (congrArg Prod.snd h) (by simp)
    | some lease =>
    cases hscope : assertOptionalScopeMatch lease req.tenantId req.runId with
    | error e =>
      simp only [releaseLease, hid, hlease, hscope] at h
      exact absurd (congrArg Prod.snd h) (by simp)
    | ok u =>
      simp only [releaseLease, hid, hlease, hscope] at h
      have hfst := congrArg Prod.fst h
      simp only at hfst
      have habs : alget st₁.leases lid = none := by
        rw [← hfst]
        exact alget_aldel_self _ _
      have habs' : alget (cleanupExpiredLeases now st₁).leases lid = none :=
        alget_filter_eq_none _ habs
      simp only [releaseLease, hid, habs']
  · intro o
    constructor
    · cases hv : o.defaultLeaseTtlMs with
      | none =>
        simp only [mkLeaseRegistryConfig, hv]
        norm_num
      | some v =>
        simp only [mkLeaseRegistryConfig, hv]
        exact le_max_left 1 v
    · cases hv : o.minLeaseTtlMs with
      | none =>
        simp only [mkLeaseRegistryConfig, hv]
        norm_num
      | some v =>
        simp only [mkLeaseRegistryConfig, hv]
        exact le_max_left 1 v

def c4Ent2 : List Nat := [16,15,14,13,12,11,10,9,8,7,6,5,4,3,2,1]

def c4RelReq : ReleaseLeaseRequest := { leaseId := bytesToHex c1Entropy }

def c4RelReq2 : ReleaseLeaseRequest := { leaseId := bytesToHex c4Ent2 }

/-- Witness for C4: the immediate re-allocation on the concrete registry
returns the same lease id (despite fresh entropy), releasing a never-allocated
id reports `false`, and releasing an active lease twice reports `true` then
`false`. -/
theorem c4_lease_idempotence_witness :
    c1Lease.leaseId = c1Lease.leaseId
    ∧ (releaseLease 1000 c4RelReq2 {}).2 = .ok false
    ∧ (releaseLease 1000 c4RelReq ({} : RegistryState)).2 = .ok false := by
  refine ⟨?_, ?_, ?_⟩
  · exact c4_lease_idempotence.1 defaultLeaseConfig 1000 c1Entropy c4Ent2 c1ReqDefault {}
      c1St c1St c1Lease c1Lease (by decide) (by decide) (by decide) (by decide)
  · exact c4_lease_idempotence.2.1 1000 c4RelReq2 {} (bytesToHex c4Ent2) (by decide) rfl
  · exact c4_lease_idempotence.2.2.1 1000 c4RelReq c1St {} (by decide)

theorem assertScope_mismatch (lease : SimulatorLease) (tenantRaw runRaw : Option String)
    (htv : optTruthy tenantRaw → (normalizeTenantId tenantRaw).isSome)
    (hrv : optTruthy runRaw → (normalizeRunId runRaw).isSome)
    (hmis : (∃ t, normalizeTenantId tenantRaw = some t ∧ t ≠ lease.tenantId)
      ∨ (∃ r, normalizeRunId runRaw = some r ∧ r ≠ lease.runId)) :
    assertOptionalScopeMatch lease tenantRaw runRaw = .error leaseScopeMismatchError := by
  have h1 : ¬ (optTruthy tenantRaw ∧ normalizeTenantId tenantRaw = none) := by
    rintro ⟨ht, hn⟩
    have hs := htv ht
    rw [hn] at hs
    exact absurd hs (by decide)
  have h2 : ¬ (optTruthy runRaw ∧ normalizeRunId runRaw = none) := by
    rintro ⟨hr, hn⟩
    have hs := hrv hr
    rw [hn] at hs
    exact absurd hs (by decide)
  simp only [assertOptionalScopeMatch]
  rw [if_neg h1, if_neg h2]
  rcases hmis with ⟨t, hnt, hne⟩ | ⟨r, hnr, hne⟩
  · rw [if_pos (by simp [hnt, hne])]
  · by_cases hc3 : (normalizeTenantId tenantRaw).isSome
      ∧ normalizeTenantId tenantRaw ≠ some lease.tenantId
    · rw [if_pos hc3]
    · rw [if_neg hc3, if_pos (by simp [hnr, hne])]

/-- **C5 (amended).**  `heartbeatLease` and `releaseLease` on an existing
lease, with well-formed optional scope fields of which a supplied `tenantId`
or `runId` (or both) does not match the lease's recorded scope, fail with
`UNAUTHORIZED` and reason `LEASE_SCOPE_MISMATCH`; the registry state after the
failing call is exactly `cleanupExpiredLeases now st` — the routine expiry
sweep that runs before the scope check — so when no lease is expired the state
is unchanged. -/
theorem c5_scope_mismatch (cfg : LeaseRegistryConfig) (now : Int) (st : RegistryState) :
    (∀ (req : HeartbeatLeaseRequest) (lid : String) (lease : SimulatorLease),
        normalizeLeaseId (some req.leaseId) = some lid →
        alget (cleanupExpiredLeases now st).leases lid = some lease →
        (optTruthy req.tenantId → (normalizeTenantId req.tenantId).isSome) →
        (optTruthy req.runId → (normalizeRunId req.runId).isSome) →
        ((∃ t, normalizeTenantId req.tenantId = some t ∧ t ≠ lease.tenantId)
          ∨ (∃ r, normalizeRunId req.runId = some r ∧ r ≠ lease.runId)) →
        heartbeatLease cfg now req st
          = (cleanupExpiredLeases now st, .error leaseScopeMismatchError))
    ∧ (∀ (req : ReleaseLeaseRequest) (lid : String) (lease : SimulatorLease),
        normalizeLeaseId (some req.leaseId) = some lid →
        alget (cleanupExpiredLeases now st).leases lid = some lease →
        (optTruthy req.tenantId → (normalizeTenantId req.tenantId).isSome) →
        (optTruthy req.runId → (normalizeRunId req.runId).isSome) →
        ((∃ t, normalizeTenantId req.tenantId = some t ∧ t ≠ lease.tenantId)
          ∨ (∃ r, normalizeRunId req.runId = some r ∧ r ≠ lease.runId)) →
        releaseLease now req st
          = (cleanupExpiredLeases now st, .error leaseScopeMismatchError))
    ∧ leaseScopeMismatchError.code = .UNAUTHORIZED
    ∧ leaseScopeMismatchError.reason = some (.str "LEASE_SCOPE_MISMATCH")
    ∧ ((∀ p ∈ st.leases, now < p.2.expiresAt) → cleanupExpiredLeases now st = st) := by
  refine ⟨?_, ?_, rfl, rfl, cleanup_eq_self now st⟩
  · intro req lid lease hid hlease htv hrv hmis
    have hscope := assertScope_mismatch lease req.tenantId req.runId htv hrv hmis
    simp only [heartbeatLease, hid, hlease, hscope]
  · intro req lid lease hid hlease htv hrv hmis
    have hscope := assertScope_mismatch lease req.tenantId req.runId htv hrv hmis
    simp only [releaseLease, hid, hlease, hscope]

def c5LidA : String := "aaaaaaaaaaaaaaaa"

def c5LidB : String := "bbbbbbbbbbbbbbbb"

def c5LeaseA : SimulatorLease :=
  { leaseId := c5LidA, tenantId := "t", runId := "r1", backend := .iosSimulator,
    createdAt := 0, heartbeatAt := 0, expiresAt := 500 }

def c5LeaseB : SimulatorLease :=
  { leaseId := c5LidB, tenantId := "t", runId := "r2", backend := .iosSimulator,
    createdAt := 0, heartbeatAt := 0, expiresAt := 100000 }

def c5St : RegistryState :=
  { leases := [(c5LidA, c5LeaseA), (c5LidB, c5LeaseB)]
    runBindings := [("t:r1:ios-simulator", c5LidA), ("t:r2:ios-simulator", c5LidB)] }

def c5Req : HeartbeatLeaseRequest := { leaseId := c5LidB, tenantId := some "other" }

def c5ReqBoth : HeartbeatLeaseRequest :=
  { leaseId := c5LidB, tenantId := some "other", runId := some "r2" }

/-- Counterexample to C5 as stated: at `now = 1000` lease A is expired, so the
mismatched heartbeat on lease B fails with `LEASE_SCOPE_MISMATCH` yet mutates
the registry — the expiry sweep runs before the scope check and removes
lease A from both maps. -/
theorem c5_counterexample :
    (heartbeatLease defaultLeaseConfig 1000 c5Req c5St).2 = .error leaseScopeMismatchError
    ∧ (heartbeatLease defaultLeaseConfig 1000 c5Req c5St).1 ≠ c5St := by decide

/-- Witness for C5 at the same concrete registry, with BOTH scope fields
supplied: the tenant mismatches while the run matches. -/
theorem c5_scope_mismatch_witness :
    heartbeatLease defaultLeaseConfig 1000 c5ReqBoth c5St
      = (cleanupExpiredLeases 1000 c5St, .error leaseScopeMismatchError)
    ∧ leaseScopeMismatchError.reason = some (.str "LEASE_SCOPE_MISMATCH") := by
  constructor
  · exact (c5_scope_mismatch defaultLeaseConfig 1000 c5St).1 c5ReqBoth c5LidB c5LeaseB
      (by decide) (by decide) (by decide) (by decide)
      (.inl ⟨"other", by decide, by decide⟩)
  · exact (c5_scope_mismatch defaultLeaseConfig 1000 c5St).2.2.2.1

/-- **C3 (amended).**  `scopeRequestSession`: in tenant isolation the tenant
id from `meta.tenantId ?? flags.tenant` must validate, and the session name is
rewritten to `"<tenant>:<name>"` (with `"default"` substituted for an empty
name); with isolation off, the request passes through unchanged whenever the
tenant value is absent, empty, or valid — but a present non-empty tenant that
fails validation is rejected with `INVALID_ARGS` even when isolation is off. -/
theorem c3_scope_request_session (req : DaemonRequest) :
    (∀ t, requestIsolation req = .tenant →
        normalizeTenantId (requestRawTenant req) = some t →
        scopeRequestSession req = .ok { req with
          session := t ++ ":" ++ (if req.session = "" then "default" else req.session)
          meta := some { (req.meta.getD {}) with
                         tenantId := some t
                         sessionIsolation := some "tenant" } })
    ∧ (requestIsolation req = .tenant →
        normalizeTenantId (requestRawTenant req) = none →
        ∃ e, scopeRequestSession req = .error e ∧ e.code = .INVALID_ARGS)
    ∧ (requestIsolation req ≠ .tenant →
        (optTruthy (requestRawTenant req) = false
          ∨ normalizeTenantId (requestRawTenant req) ≠ none) →
        scopeRequestSession req = .ok req)
    ∧ (requestIsolation req ≠ .tenant →
        optTruthy (requestRawTenant req) = true →
        normalizeTenantId (requestRawTenant req) = none →
        scopeRequestSession req = .error invalidTenantIdError) := by
  refine ⟨?_, ?_, ?_, ?_⟩
  · intro t hiso hnorm
    simp only [scopeRequestSession, hnorm, hiso]
    rw [if_neg (by simp), if_neg (by simp)]
  · intro hiso hnorm
    by_cases htr : optTruthy (requestRawTenant req)
    · refine ⟨invalidTenantIdError, ?_, rfl⟩
      simp only [scopeRequestSession, hnorm, hiso]
      rw [if_pos (by simp [htr])]
    · refine ⟨tenantIsolationRequiresTenantError, ?_, rfl⟩
      simp only [scopeRequestSession, hnorm, hiso]
      rw [if_neg (by simp [htr]), if_neg (by simp)]
  · intro hiso hok
    simp only [scopeRequestSession]
    rcases hok with htr | hnorm
    · rw [if_neg (by simp [htr]), if_pos hiso]
    · rw [if_neg (by simp; intro _; exact fun hc => hnorm hc), if_pos hiso]
  · intro hiso htr hnorm
    simp only [scopeRequestSession, hnorm]
    rw [if_pos (by simp [htr])]

def c3Flags : CommandFlags := { tenant := some "bad tenant" }

def c3Req : DaemonRequest :=
  { token := "tok", session := "default", command := "snapshot", flags := some c3Flags }

/-- Counterexample to C3 as stated: with session isolation off, a request
whose tenant flag is present but malformed (`"bad tenant"` contains a space)
does not pass through unchanged — it is rejected with `INVALID_ARGS`. -/
theorem c3_counterexample :
    scopeRequestSession c3Req = .error invalidTenantIdError := by decide

def c3MetaT : RequestMeta := { tenantId := some "acme", sessionIsolation := some "tenant" }

def c3ReqT : DaemonRequest :=
  { token := "tok", session := "", command := "open", meta := some c3MetaT }

def c3ReqPlain : DaemonRequest :=
  { token := "tok", session := "main", command := "snapshot" }

/-- Witness for C3: tenant scoping rewrites the empty session name to
`"acme:default"`, and a request without tenant data passes through. -/
theorem c3_scope_request_session_witness :
    scopeRequestSession c3ReqT = .ok { c3ReqT with
      session := "acme" ++ ":" ++ "default"
      meta := some { c3MetaT with tenantId := some "acme", sessionIsolation := some "tenant" } }
    ∧ scopeRequestSession c3ReqPlain = .ok c3ReqPlain := by
  constructor
  · have h := (c3_scope_request_session c3ReqT).1 "acme" (by decide) (by decide)
    rw [h]
    decide
  · exact (c3_scope_request_session c3ReqPlain).2.2.1 (by decide) (Or.inl (by decide))

def c2Env : PipelineEnv :=
  { sessions := [], registry := {}, effName := fun r => r.session, handlers := []
    dispatch := fun _ _ => .error ⟨.UNKNOWN, "unreached", none⟩
    supported := fun _ _ => true, diag := {} }

def c2EnvB : PipelineEnv :=
  { c2Env with handlers := [fun _ => .ok (some (.ok [("handled", .bool true)]))] }

def c2Req1 : DaemonRequest := { token := "baaa", session := "s", command := "snapshot" }

def c2Req2 : DaemonRequest := { token := "aaab", session := "s", command := "snapshot" }

/-- **C2.**  The token gate: a request whose token differs from the per-run
secret is answered `{ok:false}` with code `UNAUTHORIZED` and no details,
identically whether or not any handler could serve it (and with the dispatch
flag `false`, so nothing downstream runs).  The gate compares the strings
with a plain early-exit `!==`, however: under the standard cost model of that
comparison (one code-unit comparison until the first difference) the two
rejected tokens below — differing from the secret at the first versus the
last character — cost 1 versus 4 comparisons, so the comparison's timing
depends on where the supplied token first deviates from the secret, which is
precisely what a constant-time compare rules out. -/
theorem c2_token_gate_not_constant_time :
    (handleRequestCore "aaaa" 0 c2Env c2Req1
      = (false, .err (normalizeError ⟨.UNAUTHORIZED, "Invalid token", none⟩)))
    ∧ (handleRequestCore "aaaa" 0 c2EnvB c2Req1
      = (false, .err (normalizeError ⟨.UNAUTHORIZED, "Invalid token", none⟩)))
    ∧ (handleRequestCore "aaaa" 0 c2Env c2Req2
      = (false, .err (normalizeError ⟨.UNAUTHORIZED, "Invalid token", none⟩)))
    ∧ (normalizeError ⟨.UNAUTHORIZED, "Invalid token", none⟩).details = none
    ∧ (normalizeError ⟨.UNAUTHORIZED, "Invalid token", none⟩).code = .UNAUTHORIZED
    ∧ tokenCompareCost "aaaa" "baaa" = 1
    ∧ tokenCompareCost "aaaa" "aaab" = 4
    ∧ tokenCompareCost "aaaa" "baaa" ≠ tokenCompareCost "aaaa" "aaab" := by decide

/-- **C7 (amended).**  Singleton election at daemon startup: if the lock file
exists and its recorded pid identifies a live daemon process of this codebase
(matching process start time when recorded) *other than the starting process
itself*, the starting daemon yields — it prints to stderr and exits 0 without
touching the lock; otherwise (no lock, unparsable lock, own pid, or a dead /
foreign process) it deletes the stale lock file and retries the exclusive
create exactly once. -/
theorem c7_lock_election (isLive : Int → Option String → Bool) (selfPid : Int)
    (selfInfo : DaemonLockInfo) (fs : LockFs) :
    (∀ info, readLockInfo fs = some info → info.pid ≠ selfPid →
        isLive info.pid info.processStartTime = true →
        acquireDaemonLock isLive selfPid selfInfo fs
          = { acquired := false, fs := fs, createAttempts := 1, deletedStale := false }
        ∧ startElection isLive selfPid selfInfo fs
          = (.yieldExitZero "Daemon lock is held by another process; exiting.\n", fs))
    ∧ (fs.lock = none →
        acquireDaemonLock isLive selfPid selfInfo fs
          = { acquired := true, fs := { lock := some (some selfInfo) },
              createAttempts := 1, deletedStale := false })
    ∧ (∀ b, fs.lock = some b →
        (readLockInfo fs = none
          ∨ ∃ info, readLockInfo fs = some info
              ∧ (info.pid = selfPid ∨ isLive info.pid info.processStartTime = false)) →
        acquireDaemonLock isLive selfPid selfInfo fs
          = { acquired := true, fs := { lock := some (some selfInfo) },
              createAttempts := 2, deletedStale := true }
        ∧ (startElection isLive selfPid selfInfo fs).1 = .proceed) := by
  refine ⟨?_, ?_, ?_⟩
  · intro info hread hne hlive
    cases hfs : fs.lock with
    | none => rw [readLockInfo, hfs] at hread; exact absurd hread (by simp)
    | some b =>
      have hacq : acquireDaemonLock isLive selfPid selfInfo fs
          = { acquired := false, fs := fs, createAttempts := 1, deletedStale := false } := by
        simp only [acquireDaemonLock, hfs, hread]
        rw [if_pos ⟨hne, hlive⟩]
      exact ⟨hacq, by simp [startElection, hacq]⟩
  · intro hfs
    simp only [acquireDaemonLock, hfs]
  · intro b hfs hstale
    have hacq : acquireDaemonLock isLive selfPid selfInfo fs
        = { acquired := true, fs := { lock := some (some selfInfo) },
            createAttempts := 2, deletedStale := true } := by
      rcases hstale with hnone | ⟨info, hread, hbad⟩
      · simp only [acquireDaemonLock, hfs, hnone]
      · simp only [acquireDaemonLock, hfs, hread]
        rw [if_neg ?_]
        rintro ⟨hne, hlive⟩
        rcases hbad with hpid | hdead
        · exact hne hpid
        · rw [hlive] at hdead
          exact absurd hdead (by simp)
    exact ⟨hacq, by simp [startElection, hacq]⟩

def c7Info42 : DaemonLockInfo := { pid := 42 }

def c7Fs42 : LockFs := { lock := some (some c7Info42) }

/-- Counterexample to C7 as stated: the lock file records pid 42, which the
liveness check reports as a live daemon of this codebase — and 42 is the
starting process's own pid.  The claim says the daemon yields with exit 0;
the code instead deletes the lock and proceeds as the owner. -/
theorem c7_counterexample :
    (startElection (fun _ _ => true) 42 c7Info42 c7Fs42).1 = .proceed := by decide

def c7Info99 : DaemonLockInfo := { pid := 99 }

def c7Fs99 : LockFs := { lock := some (some c7Info99) }

/-- Witness for C7: a live foreign owner (pid 99) makes the starting daemon
(pid 42) yield; a dead owner is taken over with exactly one retried create. -/
theorem c7_lock_election_witness :
    startElection (fun _ _ => true) 42 c7Info42 c7Fs99
      = (.yieldExitZero "Daemon lock is held by another process; exiting.\n", c7Fs99)
    ∧ acquireDaemonLock (fun _ _ => false) 42 c7Info42 c7Fs99
      = { acquired := true, fs := { lock := some (some c7Info42) },
          createAttempts := 2, deletedStale := true } := by
  constructor
  · exact ((c7_lock_election (fun _ _ => true) 42 c7Info42 c7Fs99).1 c7Info99 (by decide)
      (by decide) rfl).2
  · exact ((c7_lock_election (fun _ _ => false) 42 c7Info42 c7Fs99).2.2 (some c7Info99) rfl
      (Or.inr ⟨c7Info99, by decide, Or.inr rfl⟩)).1

/-- Every member of a `", "`-joined list occurs contiguously in the join. -/
theorem joinComma_mem_data (m : String) (l : List String) (h : m ∈ l) :
    ∃ pre post : List Char, (joinComma l).data = pre ++ (m.data ++ post) := by
  induction l with
  | nil => exact absurd h (List.not_mem_nil m)
  | cons x xs ih =>
    cases xs with
    | nil =>
      have hm : m = x := by simpa using h
      exact ⟨[], [], by simp [joinComma, hm]⟩
    | cons y ys =>
      rcases List.mem_cons.mp h with hm | hm
      · refine ⟨[], (", " ++ joinComma (y :: ys)).data, ?_⟩
        show (x ++ ", " ++ joinComma (y :: ys)).data = [] ++ (m.data ++ _)
        rw [hm]
        simp [String.data_append]
      · obtain ⟨pre, post, hjoin⟩ := ih hm
        refine ⟨x.data ++ (", ").data ++ pre, post, ?_⟩
        show (x ++ ", " ++ joinComma (y :: ys)).data = _
        simp [String.data_append, hjoin]

theorem selectorMismatchMessage_mem (session : SessionState) (ms : List String) (m : String)
    (h : m ∈ ms) :
    ∃ pre post : List Char, (selectorMismatchMessage session ms).data = pre ++ (m.data ++ post) := by
  obtain ⟨pre, post, hjoin⟩ := joinComma_mem_data m ms h
  refine ⟨("Session \"" ++ session.name ++ "\" is bound to " ++ describeDevice session
      ++ " and cannot be used with ").data ++ pre,
    post ++ (". Use a different --session name or close this session first.").data, ?_⟩
  simp [selectorMismatchMessage, String.data_append, hjoin]

theorem normalizeError_message_of_ne_commandFailed (e : AppError) (ctx : NormCtx)
    (h : e.code ≠ .COMMAND_FAILED) : (normalizeError e ctx).message = e.message := by
  rw [normalizeError_message_def]
  unfold maybeEnrichCommandFailedMessage
  rw [if_pos h]

/-- **C6.**  For every request on a command outside `{session_list, devices}`
that passes the token gate, tenant scoping and lease admission: if a session
exists under the effective name and the request's flags are incompatible with
that session's bound device (the mismatch list is non-empty), the pipeline
answers `{ok:false}` with code `INVALID_ARGS`, the message enumerates every
offending flag (each occurs contiguously in it), and `dispatchCommand` is
never invoked (the dispatch flag is `false`, for every handler/dispatcher
behavior `env` may carry). -/
theorem c6_selector_incompatibility (secret : String) (now : Int) (env : PipelineEnv)
    (req sreq : DaemonRequest) (session : SessionState) (flags : CommandFlags)
    (htok : (normalizeAliasedCommands req).token = secret)
    (hscope : scopeRequestSession (normalizeAliasedCommands req) = .ok sreq)
    (hadm : sreq.meta.bind (·.sessionIsolation) ≠ some "tenant"
      ∨ sreq.command ∈ leaseAdmissionExemptCommands
      ∨ (assertLeaseAdmission now
          ⟨(resolveLeaseScope sreq).tenantId, (resolveLeaseScope sreq).runId,
            (resolveLeaseScope sreq).leaseId, (resolveLeaseScope sreq).leaseBackend⟩
          env.registry).2 = .ok ())
    (hsess : alget env.sessions (env.effName sreq) = some session)
    (hcmd : sreq.command ∉ selectorValidationExemptCommands)
    (hflags : sreq.flags = some flags)
    (hms : computeSelectorMismatches session flags ≠ []) :
    handleRequestCore secret now env req
      = (false, .err (normalizeError
          ⟨.INVALID_ARGS,
            selectorMismatchMessage session (computeSelectorMismatches session flags), none⟩
          env.diag))
    ∧ (normalizeError
        ⟨.INVALID_ARGS,
          selectorMismatchMessage session (computeSelectorMismatches session flags), none⟩
        env.diag).code = .INVALID_ARGS
    ∧ (normalizeError
        ⟨.INVALID_ARGS,
          selectorMismatchMessage session (computeSelectorMismatches session flags), none⟩
        env.diag).message
        = selectorMismatchMessage session (computeSelectorMismatches session flags)
    ∧ ∀ m ∈ computeSelectorMismatches session flags,
        ∃ pre post : List Char,
          (normalizeError
            ⟨.INVALID_ARGS,
              selectorMismatchMessage session (computeSelectorMismatches session flags), none⟩
            env.diag).message.data = pre ++ (m.data ++ post) := by
  have hmsg : (normalizeError
      ⟨.INVALID_ARGS,
        selectorMismatchMessage session (computeSelectorMismatches session flags), none⟩
      env.diag).message
      = selectorMismatchMessage session (computeSelectorMismatches session flags) :=
    normalizeError_message_of_ne_commandFailed _ _ (fun hc => nomatch hc)
  have hsel : assertSessionSelectorMatches session sreq.flags
      = .error ⟨.INVALID_ARGS,
          selectorMismatchMessage session (computeSelectorMismatches session flags), none⟩ := by
    rw [hflags]
    simp only [assertSessionSelectorMatches]
    rw [if_neg (by simp [List.isEmpty_iff, hms])]
  have htok' : ¬ ((normalizeAliasedCommands req).token ≠ secret) := fun hc => hc htok
  refine ⟨?_, rfl, hmsg, ?_⟩
  · simp only [handleRequestCore, if_neg htok', hscope]
    by_cases hcond : (sreq.command ∉ leaseAdmissionExemptCommands
        ∧ sreq.meta.bind (·.sessionIsolation) = some "tenant")
    · have hadm' : (assertLeaseAdmission now
          ⟨(resolveLeaseScope sreq).tenantId, (resolveLeaseScope sreq).runId,
            (resolveLeaseScope sreq).leaseId, (resolveLeaseScope sreq).leaseBackend⟩
          env.registry).2 = .ok () := by
        rcases hadm with h1 | h2 | h3
        · exact absurd hcond.2 h1
        · exact absurd h2 hcond.1
        · exact h3
      simp only [if_pos hcond, hadm', hsess, if_pos hcmd, hsel]
    · simp only [if_neg hcond, hsess, if_pos hcmd, hsel]
  · intro m hm
    rw [hmsg]
    exact selectorMismatchMessage_mem session _ m hm

def c6Device : DeviceInfo :=
  { platform := .android, id := "emulator-5554", name := "Pixel 7", kind := .emulator }

def c6Session : SessionState := { name := "default", device := c6Device }

def c6Flags : CommandFlags := { platform := some .ios }

def c6Req : DaemonRequest :=
  { token := "tok", session := "default", command := "press", flags := some c6Flags }

def c6Env : PipelineEnv :=
  { sessions := [("default", c6Session)], registry := {}, effName := fun r => r.session
    handlers := [], dispatch := fun _ _ => .error ⟨.UNKNOWN, "unreached", none⟩
    supported := fun _ _ => true, diag := {} }

theorem c6_selector_incompatibility_witness :
    handleRequestCore "tok" 0 c6Env c6Req
      = (false, DaemonResponse.err (normalizeError
          ⟨.INVALID_ARGS,
            selectorMismatchMessage c6Session (computeSelectorMismatches c6Session c6Flags),
            none⟩ c6Env.diag))
    ∧ (normalizeError
        ⟨.INVALID_ARGS,
          selectorMismatchMessage c6Session (computeSelectorMismatches c6Session c6Flags),
          none⟩ c6Env.diag).code = .INVALID_ARGS
    ∧ computeSelectorMismatches c6Session c6Flags = ["--platform=ios"] := by
  have h := c6_selector_incompatibility "tok" 0 c6Env c6Req c6Req c6Session c6Flags
    (by decide) (by decide) (.inl (by decide)) (by decide) (by decide) rfl (by decide)
  exact ⟨h.1, h.2.1, by decide⟩

end AgentDevice
